import Mathlib

/-!
Verification of the query-resolution and caching core of the
OpenVoiceOS Spotify skill (`skill-ovos-spotify`).

The repository contains two near-duplicate client implementations:
`src/spotify.py` (`ovos_skill_spotify`, confidences as integers on a 0-100
scale) and the legacy pair `src/skill_spotify/spotify.py` /
`src/skill_spotify/__init__.py` (confidences as floats on a 0-1 scale).
Both are embedded below.  Quantities that are floats in Python
(confidences, timestamps) are modelled as rationals (`ℚ`); the external
fuzzy-matching library (`ovos_utils.parse.fuzzy_match` / `rapidfuzz`) is
an opaque collaborator and is therefore a function parameter
`fm : String → String → ℚ` of every definition that calls it.  The
Spotify web API is likewise a parameter (`search` functions and backend
value lists).  Python code that can raise (tuple-unpacking of
`str.split`, use of a possibly-unbound local, a method falling off its
end and the caller unpacking `None`) is modelled with `Option`, `none`
standing for the raised exception / the implicit `None` return.
-/

namespace SkillSpotify

/-! ## Data model -/

/-- One track item as returned by a Spotify track search
(`data['tracks']['items'][i]`): the fields the skill reads are
`name`, `popularity` and `artists[0]['name']`. -/
structure Track where
  name : String
  popularity : ℚ
  artists : List String
deriving DecidableEq, Repr

/-- One device dictionary from `spotify.devices()`. -/
structure Device where
  id : String
  name : String
  isActive : Bool
deriving DecidableEq, Repr

/-- One playlist dictionary from `current_user_playlists()`. -/
structure Playlist where
  name : String
  uri : String
deriving DecidableEq, Repr

/-- One show item from a `type='show'` search. -/
structure PodShow where
  name : String
deriving DecidableEq, Repr

/-- One artist item from a `type='artist'` search. -/
structure Artist where
  name : String
deriving DecidableEq, Repr

/-- One album item from a `type='album'` search. -/
structure Album where
  name : String
deriving DecidableEq, Repr

/-- Result of one sub-query.  Pythons `NOTHING_FOUND` tuples
(`(0.0, None)` in `src/spotify.py`, `(None, 0.0)` in the legacy client)
unpack to a falsy confidence and falsy data, so every caller treats them
as the absence of a result; `found c d` models a `(confidence, data)`
pair with a real (dict) payload. -/
inductive QueryResult (α : Type) where
  | nothingFound
  | found (conf : ℚ) (data : α)
deriving DecidableEq, Repr

/-- The outcome of a Python call that can terminate abnormally:
`raised` is an uncaught exception escaping the call, `returned v` a
normal return of `v`.  (Plain `Option` is kept for functions whose only
abnormal outcome is an exception; `PyOutcome` is used where an
exception must be told apart from an explicit or implicit
`return None`.) -/
inductive PyOutcome (α : Type) where
  | raised
  | returned (v : α)
deriving DecidableEq, Repr

/-! ## Python's stable sort

`list.sort` / `sorted` with a key function is a stable ascending sort.
It is modelled by insertion sort where an element is inserted *before*
the first element of the (already sorted) tail whose key is larger or
equal — since in the right fold the inserted element precedes the tail
in the original list, placing it before all equal keys is exactly
stability. -/

/-- Insert `x` into `l` before the first element with a key that is at
least `k x`. -/
def insertSorted (k : α → ℚ) (x : α) : List α → List α
  | [] => [x]
  | y :: ys => if k x ≤ k y then x :: y :: ys else y :: insertSorted k x ys

/-- Stable ascending sort by the key `k`: the model of Python
`sorted(l, key=k)` / `l.sort(key=k)`. -/
def stableSort (k : α → ℚ) : List α → List α
  | [] => []
  | x :: xs => insertSorted k x (stableSort k xs)

/-- The *last* element of `l` attaining the maximal key (ties are won by
the later element); `none` on the empty list.  This is what indexing a
stably sorted list with `[-1]` returns. -/
def lastMax (k : α → ℚ) : List α → Option α
  | [] => none
  | x :: xs =>
    match lastMax k xs with
    | none => some x
    | some y => if k x ≤ k y then some y else some x

/-- The *first* element of `l` attaining the maximal key (ties are won
by the earlier element); `none` on the empty list. -/
def firstMax (k : α → ℚ) : List α → Option α
  | [] => none
  | x :: xs =>
    match firstMax k xs with
    | none => some x
    | some y => if k x < k y then some y else some x

/-- Key function for result tuples: the confidence component
(`key=lambda x: x[0]`). -/
def resKey (p : ℚ × α) : ℚ := p.1

/-! ## `best_result`

`SpotifyClient.best_result` (`src/spotify.py` lines 103-115, identical
in `src/skill_spotify/spotify.py` lines 288-300 and as the free
function `best_result` in `src/skill_spotify/__init__.py` lines 58-71):

    if len(results) == 0:
        return SpotifyClient.NOTHING_FOUND
    else:
        results.reverse()
        return sorted(results, key=lambda x: x[0])[-1]

`sorted` is Python's stable ascending sort; `[-1]` takes the last
element of the (non-empty) sorted list, modelled by `getLastD` seeded
with the head — the seed is only a formal default. -/

/-- Model of `best_result`. -/
def best_result : List (ℚ × α) → QueryResult α
  | [] => .nothingFound
  | x :: xs =>
    let sorted := stableSort resKey ((x :: xs).reverse)
    let p := sorted.getLastD x
    .found p.1 p.2

/-! ## String primitives

Kernel-computable models of the Python string operations used by the
skill.  They operate on the character list of a `String` (Lean's own
`String.toLower`, `trim` and `splitOn` are not kernel-reducible). -/

/-- Python `str.lower()`. -/
def pyLower (s : String) : String := String.mk (s.data.map Char.toLower)

/-- Python `str.strip()` (surrounding whitespace removed). -/
def pyStrip (s : String) : String :=
  String.mk (((s.data.dropWhile Char.isWhitespace).reverse.dropWhile
    Char.isWhitespace).reverse)

/-- Fuelled worker for `pySplit` (fuel = length of the scanned list, so
the base fuel case is never reached). -/
def splitOnGo (sep : List Char) : Nat → List Char → List Char → List (List Char)
  | 0, l, acc => [acc.reverse ++ l]
  | Nat.succ fuel, l, acc =>
    match l with
    | [] => [acc.reverse]
    | c :: rest =>
      if sep.isPrefixOf (c :: rest) then
        acc.reverse :: splitOnGo sep fuel (List.drop (sep.length - 1) rest) []
      else
        splitOnGo sep fuel rest (c :: acc)

/-- Python `str.split(sep)` for a non-empty separator. -/
def pySplit (s sep : String) : List String :=
  (splitOnGo sep.data s.data.length s.data []).map String.mk

/-- Python `int()` on a rational: truncation toward zero. -/
def pyInt (q : ℚ) : ℤ := if 0 ≤ q then ⌊q⌋ else -⌊-q⌋

/-- Does the anchored regex `(\(.+\)|-.+)$` match the whole suffix
beginning here?  First alternative: an opening parenthesis, at least one
further character, and a closing parenthesis as the final character.
Second alternative: a dash followed by at least one character.  (Titles
are treated as newline-free, where this is exactly the Python regex.) -/
def altMatch : List Char → Bool
  | '(' :: mid => decide (2 ≤ mid.length) && decide (mid.getLast? = some ')')
  | '-' :: mid => decide (1 ≤ mid.length)
  | _ => false

/-- `re.sub(r'(\(.+\)|-.+)$', '', s)`: delete from the leftmost position
where the anchored pattern matches (the match always extends to the end
of the string). -/
def subTrailing : List Char → List Char
  | [] => []
  | c :: cs => if altMatch (c :: cs) then [] else c :: subTrailing cs

/-- `re.sub(r'(\(.+\)|-.+)$', '', s).strip()` as used by
`best_confidence`. -/
def stripParen (s : String) : String := pyStrip (String.mk (subTrailing s.data))

/-! ## `best_confidence` (the spec's `titleScore`)

`src/skill_spotify/spotify.py` lines 302-317 (identically
`src/spotify.py` lines 117-132 up to the `int(... * 100)` scaling):

    best = title.lower()
    best_stripped = re.sub(r'(\(.+\)|-.+)$', '', best).strip()
    return max(fuzzy_match(best, query), fuzzy_match(best_stripped, query))

The external similarity `fuzzy_match` is the parameter `fm`. -/

/-- Unit-scale `best_confidence`. -/
def best_confidence (fm : String → String → ℚ) (title query : String) : ℚ :=
  let best := pyLower title
  let best_stripped := stripParen best
  max (fm best query) (fm best_stripped query)

/-- 0-100 scale `best_confidence` of `src/spotify.py`:
`int(max(...) * 100)`. -/
def best_confidence100 (fm : String → String → ℚ) (title query : String) : ℚ :=
  ((pyInt (best_confidence fm title query * 100) : ℤ) : ℚ)

/-! ## The per-kind query methods -/

/-- The shared `' by '` split of `query_album` / `query_song`:
`x, artist = x.split(by_word)` returns the pair of parts when there is
exactly one occurrence of `' by '`; with two or more occurrences the
unpacking raises `ValueError` (modelled by `none`).  Returns the split
name, the search term sent to the backend and whether the split fired
(the album query adds a bonus in that case). -/
def bySplit (phrase : String) : Option (String × String × Bool) :=
  match pySplit phrase " by " with
  | [s] => some (s, s, false)
  | [s, a] => some (s, "*" ++ s ++ "* artist:" ++ a, true)
  | _ => none

/-- `SpotifyClient.query_artist` of `src/skill_spotify/spotify.py`
lines 404-424 (confidences on the 0-1 scale):

    bonus += 0.1
    data = self.spotify.search(artist, type='artist')
    if data and data['artists']['items']:
        best = data['artists']['items'][0]['name']
        confidence = fuzzy_match(best, artist.lower()) + bonus
        confidence = min(confidence, 1.0)
        return (confidence, ...)
    else:
        return NOTHING_FOUND -/
def query_artistU (fm : String → String → ℚ) (search : String → Option (List Artist))
    (artist : String) (bonus : ℚ) : QueryResult (List Artist) :=
  let bonus := bonus + 1/10
  match search artist with
  | some (a :: rest) =>
    let best := a.name
    let confidence := fm best (pyLower artist) + bonus
    let confidence := min confidence 1
    .found confidence (a :: rest)
  | _ => .nothingFound

/-- `SpotifyClient.query_artist` of `src/spotify.py` lines 167-186
(0-100 scale, no bonus parameter):
`confidence = fuzzy_match(best, artist.lower()) * 100` then
`min(confidence, 100)`. -/
def query_artist100 (fm : String → String → ℚ) (search : String → Option (List Artist))
    (artist : String) : QueryResult (List Artist) :=
  match search artist with
  | some (a :: rest) =>
    let confidence := fm a.name (pyLower artist) * 100
    let confidence := min confidence 100
    .found confidence (a :: rest)
  | _ => .nothingFound

/-- `SpotifyClient.query_album` of `src/skill_spotify/spotify.py`
lines 426-456: optional `' by '` split (bonus `+= 0.1` when it fires),
then `confidence = min(best_confidence(best, album) + bonus, 1.0)` on
the first returned album. -/
def query_albumU (fm : String → String → ℚ) (search : String → Option (List Album))
    (album : String) (bonus : ℚ) : Option (QueryResult (List Album)) :=
  match bySplit album with
  | none => none
  | some (name, term, didSplit) =>
    let bonus := if didSplit then bonus + 1/10 else bonus
    match search term with
    | some (a :: rest) =>
      let best := pyLower a.name
      let confidence := best_confidence fm best name
      let confidence := min (confidence + bonus) 1
      some (.found confidence (a :: rest))
    | _ => some .nothingFound

/-- `SpotifyClient.query_album` of `src/spotify.py` lines 188-218
(0-100 scale, bonus 10 on an artist-scoped search):
`confidence = min(best_confidence(best, album) + bonus, 100)`. -/
def query_album100 (fm : String → String → ℚ) (search : String → Option (List Album))
    (album : String) : Option (QueryResult (List Album)) :=
  match bySplit album with
  | none => none
  | some (name, term, didSplit) =>
    let bonus : ℚ := if didSplit then 10 else 0
    match search term with
    | some (a :: rest) =>
      let best := pyLower a.name
      let confidence := best_confidence100 fm best name
      let confidence := min (confidence + bonus) 100
      some (.found confidence (a :: rest))
    | _ => some .nothingFound

/-- Popularity key for the secondary track sort
(`key=lambda x: x[1]['popularity']`). -/
def popKey (p : ℚ × Track) : ℚ := p.2.popularity

/-- The shared track-selection pipeline of both `query_song` versions
(`src/spotify.py` lines 236-243, `src/skill_spotify/spotify.py` lines
475-485):

    tracks.sort(key=lambda x: x[0])
    tracks.reverse()
    tracks = [t for t in tracks if t[0] > tracks[0][0] - 0.1]
    tracks.sort(key=lambda x: x[1]['popularity'])

and the winner is `tracks[-1]`. -/
def trackPipeline (scored : List (ℚ × Track)) : Option (ℚ × Track) :=
  match (stableSort resKey scored).reverse with
  | [] => none
  | b :: rest =>
    let kept := (b :: rest).filter (fun t => decide (b.1 - 1/10 < t.1))
    (stableSort popKey kept).getLast?

/-- `SpotifyClient.query_song` of `src/skill_spotify/spotify.py`
lines 458-489 (0-1 scale).  The final confidence is
`tracks[-1][0] + bonus` — note: *not* clamped. -/
def query_songU (fm : String → String → ℚ) (search : String → Option (List Track))
    (song : String) (bonus : ℚ) : Option (QueryResult (List Track)) :=
  match bySplit song with
  | none => none
  | some (name, term, _) =>
    match search term with
    | some items =>
      if 0 < items.length then
        let scored := items.map (fun d => (best_confidence fm d.name name, d))
        match trackPipeline scored with
        | some w => some (.found (w.1 + bonus) [w.2])
        | none => none
      else some .nothingFound
    | none => some .nothingFound

/-- `SpotifyClient.query_song` of `src/spotify.py` lines 220-252 (0-100
scale): the winner additionally receives
`bonus = int(fuzzy_match(song_search, winner.artists[0].name, TOKEN_SET) * 100)`
(the token-set strategy is the separate parameter `fmTok`; the `[0]`
index is modelled by `headD ""` — API tracks always carry an artist)
and the result is clamped: `min(100, tracks[-1][0] + bonus)`. -/
def query_song100 (fm fmTok : String → String → ℚ)
    (search : String → Option (List Track)) (song : String) :
    Option (QueryResult (List Track)) :=
  match bySplit song with
  | none => none
  | some (name, term, _) =>
    match search term with
    | some items =>
      if 0 < items.length then
        let scored := items.map (fun d => (best_confidence100 fm d.name name, d))
        match trackPipeline scored with
        | some w =>
          let bonus : ℚ := ((pyInt (fmTok term (w.2.artists.headD "") * 100) : ℤ) : ℚ)
          some (.found (min 100 (w.1 + bonus)) [w.2])
        | none => none
      else some .nothingFound
    | none => some .nothingFound

/-! ## The broken helpers of `src/skill_spotify/__init__.py`

The module `src/skill_spotify/__init__.py` defines its own copies of
the scoring helpers, and two of them cannot execute:

* `best_confidence` (lines 74-91) ends in
  `max(fuzz.ratio(best, query), fuzz-ratio(best_stripped, query))` —
  the second operand is a subtraction whose right side is the undefined
  name `ratio`, so every call raises `NameError`;
* `match_one` (lines 98-103) calls `process.extractOne(...)` with
  `process` never imported, so every call raises `NameError` (and even
  its intended return is only `selected[0]`, the bare choice, not a
  `(key, confidence)` pair).

The sub-queries of that module which call these helpers therefore raise
on every code path that reaches them. -/

/-- The module-level `best_confidence` of `src/skill_spotify/__init__.py`
lines 74-91.  The first `fuzz.ratio(best, query)` operand is evaluated,
then the expression `fuzz-ratio(best_stripped, query)` raises
`NameError` on the undefined name `ratio`, so the function never
returns (`none`). -/
def best_confidenceInit (fm : String → String → ℚ) (title query : String) : Option ℚ :=
  let best := pyLower title
  let _best_stripped := stripParen best
  let _first_operand := fm best query
  none

/-- The module-level `match_one` of `src/skill_spotify/__init__.py`
lines 98-103: `process.extractOne` references the unimported name
`process`, so every call raises `NameError` (`none`). -/
def match_oneInit (_query : String) (_choices : List String) : Option (String × ℚ) :=
  none

/-- `SkillSpotify.query_album` of `src/skill_spotify/__init__.py`
lines 506-539: the same `' by '` split and clamp structure as the other
album queries, but it scores with the broken module-level
`best_confidence`, so any non-empty album result set raises `NameError`
(the `some` continuation below mirrors the source's
`min(confidence + bonus, 1.0)` but is unreachable); empty result sets
return `NOTHING_FOUND`, and two or more `' by '` occurrences raise
`ValueError` at the unpack. -/
def query_albumInit (fm : String → String → ℚ) (search : String → Option (List Album))
    (album : String) (bonus : ℚ) : PyOutcome (QueryResult (List Album)) :=
  match bySplit album with
  | none => .raised
  | some (name, term, didSplit) =>
    let bonus := if didSplit then bonus + 1/10 else bonus
    match search term with
    | some (a :: rest) =>
      match best_confidenceInit fm (pyLower a.name) name with
      | none => .raised
      | some confidence => .returned (.found (min (confidence + bonus) 1) (a :: rest))
    | _ => .returned .nothingFound

/-- `SkillSpotify.query_song` of `src/skill_spotify/__init__.py`
lines 578-613: structurally the unit-scale `query_song`, but the list
comprehension scores with the broken module-level `best_confidence`, so
any non-empty track result set raises `NameError` at the first scoring
call (the `some` branch is unreachable — `best_confidenceInit` never
returns, and the comprehension's remaining calls would raise as well);
empty result sets return `NOTHING_FOUND`, two or more `' by '`
occurrences raise `ValueError`. -/
def query_songInit (fm : String → String → ℚ) (search : String → Option (List Track))
    (song : String) (bonus : ℚ) : PyOutcome (QueryResult (List Track)) :=
  match bySplit song with
  | none => .raised
  | some (name, term, _) =>
    match search term with
    | some (d :: _rest) =>
      match best_confidenceInit fm d.name name with
      | none => .raised
      | some _ => .raised
    | _ => .returned .nothingFound

/-- `SkillSpotify.get_best_user_playlist` of
`src/skill_spotify/__init__.py` lines 743-757: with a non-empty
playlist catalogue, `key, confidence = match_one(playlist.lower(),
playlists)` calls the broken module-level `match_one` and raises
`NameError` (the `some` continuation mirrors the source's 0.7 check but
is unreachable — `match_oneInit` never returns, and its intended return
is not even a pair); only an empty catalogue reaches `NOTHING_FOUND`. -/
def get_best_user_playlistInit (playlistKeys : List String) (playlist : String) :
    PyOutcome (Option String × ℚ) :=
  if 0 < playlistKeys.length then
    match match_oneInit (pyLower playlist) playlistKeys with
    | none => .raised
    | some kc =>
      .returned (if 7/10 < kc.2 then (some kc.1, kc.2) else (none, 0))
  else .returned (none, 0)

/-- `SkillSpotify.query_show` of `src/skill_spotify/__init__.py`
lines 561-576:

    data = self.spotify.search(podcast, type='show')
    if data and data['shows']['items']:
        best = data['shows']['items'][0]['name'].lower()
        confidence = best_confidence(best, podcast)
        return (confidence, ...)

On a non-empty result set the call into the broken module-level
`best_confidence` raises `NameError` (the `some` continuation is
unreachable).  And there is **no** else branch: on an empty result set
the method falls off its end and returns Python `None`
(`.returned none`), not `NOTHING_FOUND`. -/
def query_show (fm : String → String → ℚ) (search : String → Option (List PodShow))
    (podcast : String) : PyOutcome (Option (QueryResult (List PodShow))) :=
  match search podcast with
  | some (s :: rest) =>
    let best := pyLower s.name
    match best_confidenceInit fm best podcast with
    | none => .raised
    | some confidence => .returned (some (.found confidence (s :: rest)))
  | _ => .returned none

/-- `SpotifyClient.get_best_user_playlist` of
`src/skill_spotify/spotify.py` lines 491-503, where `match_one` is
the genuinely external `ovos_utils.parse.match_one` (imported at the
top of that file), here the oracle parameter `matchOne`; the cached
playlist dict is represented by its lowered-name key list.  A match is
accepted only above 0.7; the result tuple is `(name, confidence)`,
`NOTHING_FOUND` unpacking as `(None, 0.0)`.  (`src/spotify.py` lines
254-267 is the same up to a strategy argument and an
`int(confidence * 100)` scaling; the `__init__.py` variant with its
broken local `match_one` is `get_best_user_playlistInit` above.) -/
def get_best_user_playlist (matchOne : String → List String → String × ℚ)
    (playlistKeys : List String) (playlist : String) : Option String × ℚ :=
  if 0 < playlistKeys.length then
    let (key, confidence) := matchOne (pyLower playlist) playlistKeys
    if 7/10 < confidence then (some key, confidence) else (none, 0)
  else (none, 0)

/-- `SkillSpotify.get_best_public_playlist` (`src/skill_spotify/__init__.py`
lines 759-768): first playlist item of a public search, accepted only
above 0.7. -/
def get_best_public_playlist (fm : String → String → ℚ)
    (search : String → Option (List Playlist)) (playlist : String) :
    QueryResult Playlist :=
  match search playlist with
  | some (best :: _) =>
    let confidence := fm (pyLower best.name) playlist
    if 7/10 < confidence then .found confidence best else .nothingFound
  | _ => .nothingFound

/-! ## `continue_playback` and the resolution chain -/

/-- `SkillSpotify.continue_playback` (`src/skill_spotify/__init__.py`
lines 341-350):

    if phrase.strip() == 'spotify':
        return (1.0, \x7b'data': None, 'name': None, 'type': 'continue'\x7d)
    else:
        return NOTHING_FOUND

It triggers iff the (marker-stripped) phrase, stripped of surrounding
whitespace, equals exactly `"spotify"` — *not* when it is empty.  The
payload dict is modelled by `Unit`.  The `bonus` argument is unused by
the source as well. -/
def continue_playback (phrase : String) (bonus : ℚ) : QueryResult Unit :=
  if pyStrip phrase = "spotify" then .found 1 () else .nothingFound

/-- The resolution chain of `SkillSpotify.match_query_phrase`
(`src/skill_spotify/__init__.py` lines 298-302):

    confidence, data = self.continue_playback(phrase, bonus)
    if not data:
        confidence, data = self.specific_query(phrase, bonus)
        if not data:
            confidence, data = self.generic_query(phrase, bonus)

The continue check runs first, then the specific query, then the
generic query; a later stage runs only when the earlier stage produced
no (truthy) data. -/
def resolveQuery (cont spec gen : QueryResult α) : QueryResult α :=
  match cont with
  | .found c d => .found c d
  | .nothingFound =>
    match spec with
    | .found c d => .found c d
    | .nothingFound => gen

/-! ## `generic_query`

`SpotifyClient.generic_query` (`src/skill_spotify/spotify.py` lines
341-402).  The lookups run in the fixed order user playlist, artist,
track (song), album, public playlist.  Each post-playlist stage is the
block

    conf, data = self.query_X(phrase, bonus)
    if conf and conf > DIRECT_RESPONSE_CONFIDENCE:
        return conf, data
    elif conf and conf > MATCH_CONFIDENCE:
        results.append((conf, data))

and the code ends with `return best_result(results)` — but in this
class the fifth block begins with
`conf, data = self.get_best_public_playlist(phrase)` and
`SpotifyClient` defines **no** method of that name (it exists only on
`SkillSpotify` in `__init__.py`), so every run that is not
short-circuited by the first four lookups raises `AttributeError`
before `best_result`; the accumulator is dead code.  The first four
lookups of this class are real, working methods (their `fuzzy_match`
and `match_one` come from `ovos_utils.parse`), so their outcomes are
oracle inputs here (structure `GQInSC`); the sibling
`SkillSpotify.generic_query` of `__init__.py` has the fifth method but
its own playlist/song/album lookups raise `NameError` (see
`query_songInit`, `query_albumInit`, `get_best_user_playlistInit`), so
it cannot reach `best_result` with accumulated candidates either.  The
model reports how many lookups were evaluated, recording the
short-circuit behaviour of the sequential `return` statements. -/

/-- `DIRECT_RESPONSE_CONFIDENCE = 0.8`. -/
def DIRECT_RESPONSE_CONFIDENCE : ℚ := 4/5

/-- `MATCH_CONFIDENCE = 0.5`. -/
def MATCH_CONFIDENCE : ℚ := 1/2

/-- The confidence a stage result presents to the truthiness checks
(`NOTHING_FOUND` unpacks to a falsy confidence, modelled as 0). -/
def qrConf : QueryResult α → ℚ
  | .nothingFound => 0
  | .found c _ => c

/-- `conf and conf > DIRECT_RESPONSE_CONFIDENCE` for a numeric `conf`:
truthiness (`conf != 0`) plus the strict threshold. -/
def directHit (c : ℚ) : Prop := c ≠ 0 ∧ DIRECT_RESPONSE_CONFIDENCE < c

/-- `conf and conf > MATCH_CONFIDENCE`. -/
def matchHit (c : ℚ) : Prop := c ≠ 0 ∧ MATCH_CONFIDENCE < c

instance (c : ℚ) : Decidable (directHit c) :=
  inferInstanceAs (Decidable (c ≠ 0 ∧ DIRECT_RESPONSE_CONFIDENCE < c))

instance (c : ℚ) : Decidable (matchHit c) :=
  inferInstanceAs (Decidable (c ≠ 0 ∧ MATCH_CONFIDENCE < c))

/-- Python truthiness of the `playlist` name returned by
`get_best_user_playlist`: `None` and the empty string are falsy. -/
def strTruthy : Option String → Bool
  | none => false
  | some s => decide (s ≠ "")

/-- Outcome of one post-playlist stage: either an immediate `return`
or the (possibly empty) extension of the accumulator. -/
inductive StageOut (α : Type) where
  | direct (r : QueryResult α)
  | acc (add : List (ℚ × α))

/-- One `if conf and conf > 0.8: return / elif conf and conf > 0.5:
append` block. -/
def stageCheck : QueryResult α → StageOut α
  | .nothingFound => .acc []
  | .found c d =>
    if directHit c then .direct (.found c d)
    else if matchHit c then .acc [(c, d)]
    else .acc []

/-- The candidate contributed by a stage that did not return directly. -/
def accList : QueryResult α → List (ℚ × α)
  | .nothingFound => []
  | .found c d => if matchHit c ∧ ¬ directHit c then [(c, d)] else []

/-- The lookup outcomes feeding one `SpotifyClient.generic_query` run:
`emptyData` is the initial `data = \x7b\x7d` binding, `userPlaylist`
the `(playlist, conf)` pair from `get_best_user_playlist`,
`playlistData` builds the stage-1 payload
`\x7b'data': self.playlists[playlist], 'name': playlist, 'type': 'playlist'\x7d`
from the playlist name (the oracle hands back a key of the cached
playlist dict, as `get_best_user_playlist`'s contract describes), and
the remaining three fields are the outcomes of `query_artist`,
`query_song` and `query_album` on the phrase. -/
structure GQInSC (α : Type) where
  emptyData : α
  userPlaylist : Option String × ℚ
  playlistData : String → α
  artist : QueryResult α
  song : QueryResult α
  album : QueryResult α

/-- `SpotifyClient.generic_query`, instrumented with the number of
lookups evaluated (1-4).  Stage 1 pre-binds `data = \x7b\x7d` and
rebinds it under `if playlist:`.  The candidate accumulator is built
exactly as in the source (the `_results` lets) but is dead: the fifth
lookup calls the nonexistent `self.get_best_public_playlist`, so a run
that is not short-circuited by the first four lookups raises
`AttributeError` (`none`) and `best_result` is never reached. -/
def generic_querySC (L : GQInSC α) : Option (QueryResult α × Nat) :=
  let playlist := L.userPlaylist.1
  let conf := L.userPlaylist.2
  let data : α :=
    if strTruthy playlist then L.playlistData (playlist.getD "") else L.emptyData
  if directHit conf then some (.found conf data, 1)
  else
    let _results1 : List (ℚ × α) := if matchHit conf then [(conf, data)] else []
    match stageCheck L.artist with
    | .direct r => some (r, 2)
    | .acc _a2 =>
      match stageCheck L.song with
      | .direct r => some (r, 3)
      | .acc _a3 =>
        match stageCheck L.album with
        | .direct r => some (r, 4)
        | .acc _a4 =>
          -- conf, data = self.get_best_public_playlist(phrase):
          -- AttributeError, SpotifyClient has no such method
          none

/-- The clamping property that does hold on the code: every confidence
returned by `query_artist` and `query_album` of `src/spotify.py` and
`src/skill_spotify/spotify.py` and by the `query_song` of
`src/spotify.py` lies within its scale; and the `query_song` and
`query_album` of `src/skill_spotify/__init__.py` never return a found
confidence at all (their helper `best_confidence` raises `NameError`
on every call, see `best_confidenceInit`). -/
def C2Prop (fm fmTok : String → String → ℚ) (bonus : ℚ) : Prop :=
  (∀ searchA artist c d, query_artistU fm searchA artist bonus = .found c d →
    0 ≤ c ∧ c ≤ 1) ∧
  (∀ searchA artist c d, query_artist100 fm searchA artist = .found c d →
    0 ≤ c ∧ c ≤ 100) ∧
  (∀ searchAl album c d, query_albumU fm searchAl album bonus = some (.found c d) →
    0 ≤ c ∧ c ≤ 1) ∧
  (∀ searchAl album c d, query_album100 fm searchAl album = some (.found c d) →
    0 ≤ c ∧ c ≤ 100) ∧
  (∀ searchT song c d, query_song100 fm fmTok searchT song = some (.found c d) →
    0 ≤ c ∧ c ≤ 100) ∧
  (∀ searchT song c d, query_songInit fm searchT song bonus ≠
    .returned (.found c d)) ∧
  (∀ searchAl album c d, query_albumInit fm searchAl album bonus ≠
    .returned (.found c d))

/-! ## The TTL caches -/

/-- Python truthiness of an optional list/dict value: `None` and empty
are falsy. -/
def optFalsy : Option (List α) → Bool
  | none => true
  | some l => l.isEmpty

/-- Cache slot of the `devices` property: `self.__device_list`
(initially `None`) and `self.__devices_fetched` (initially 0). -/
structure DevCache where
  deviceList : Option (List Device)
  devicesFetched : ℚ
deriving DecidableEq, Repr

/-- `SpotifyClient.devices` property (`src/spotify.py` lines 142-151;
`SkillSpotify.devices`, `src/skill_spotify/__init__.py` lines 671-680,
is identical):

    if not self.spotify:
        return []
    now = time.time()
    if not self.__device_list or (now - self.__devices_fetched > 60):
        self.__device_list = self.spotify.devices().get('devices', [])
        self.__devices_fetched = now
    return self.__device_list

Returns the produced value, the new cache state, and whether the
backend was invoked. -/
def devicesProp (spotifyOk : Bool) (backend : List Device) (now : ℚ) (s : DevCache) :
    List Device × DevCache × Bool :=
  if !spotifyOk then ([], s, false)
  else if optFalsy s.deviceList || decide (60 < now - s.devicesFetched) then
    (backend, ⟨some backend, now⟩, true)
  else (s.deviceList.getD [], s, false)

/-- Cache slot of the `playlists` property: the name-keyed dict
`self._playlists` (insertion-ordered, later duplicate keys overwrite)
and `self.__playlists_fetched`. -/
structure PlCache where
  playlists : Option (List (String × Playlist))
  playlistsFetched : ℚ
deriving DecidableEq, Repr

/-- Insertion into a Python dict modelled as an association list:
an existing key is overwritten in place, a new key is appended. -/
def dictInsert (m : List (String × α)) (key : String) (v : α) : List (String × α) :=
  if m.any (fun kv => kv.1 == key) then
    m.map (fun kv => if kv.1 == key then (key, v) else kv)
  else m ++ [(key, v)]

/-- `for p in playlists: self._playlists[p['name'].lower()] = p`. -/
def mkPlaylistMap (items : List Playlist) : List (String × Playlist) :=
  items.foldl (fun m p => dictInsert m (pyLower p.name) p) []

/-- `playlists` property (`src/spotify.py` lines 153-165, identically
`src/skill_spotify/spotify.py` lines 327-339 and
`src/skill_spotify/__init__.py` lines 637-649), TTL `5 * 60`. -/
def playlistsProp (spotifyOk : Bool) (backend : List Playlist) (now : ℚ) (s : PlCache) :
    List (String × Playlist) × PlCache × Bool :=
  if !spotifyOk then ([], s, false)
  else if optFalsy s.playlists || decide (5 * 60 < now - s.playlistsFetched) then
    let m := mkPlaylistMap backend
    (m, ⟨some m, now⟩, true)
  else (s.playlists.getD [], s, false)

/-- One page of `current_user_saved_tracks`: its `items` (each item's
`['track']` already projected) and whether a `next` link exists. -/
structure SavedBatch where
  items : List Track
  next : Bool
deriving DecidableEq, Repr

/-- Cache slot for saved tracks: `self.saved_tracks` (initially `None`)
and `self.__saved_tracks_fetched`. -/
structure SavedCache where
  savedTracks : Option (List Track)
  savedFetched : ℚ
deriving DecidableEq, Repr

/-- The pagination loop of `refresh_saved_tracks`: concatenate
successive pages until a page reports no `next` link (the model also
stops when the supplied page list is exhausted). -/
def collectSaved : List SavedBatch → List Track
  | [] => []
  | b :: rest => b.items ++ (if b.next then collectSaved rest else [])

/-- `SkillSpotify.refresh_saved_tracks` (`src/skill_spotify/__init__.py`
lines 651-669), TTL `4 * 60 * 60 = 14400`:

    if not self.spotify:
        return []
    now = time.time()
    if (not self.saved_tracks or
            (now - self.__saved_tracks_fetched > 4 * 60 * 60)):
        ... paginate ...
        self.saved_tracks = saved_tracks
        self.__saved_tracks_fetched = now -/
def refresh_saved_tracks (spotifyOk : Bool) (pages : List SavedBatch) (now : ℚ)
    (s : SavedCache) : SavedCache × Bool :=
  if !spotifyOk then (s, false)
  else if optFalsy s.savedTracks || decide (4 * 60 * 60 < now - s.savedFetched) then
    (⟨some (collectSaved pages), now⟩, true)
  else (s, false)

/-! ## Two concurrent cache accesses

The host may invoke search handlers from several threads at once
(spec §5).  The cache code above takes no lock, so the three observable
steps of one `devices` access — read-and-test the cache, call the
backend, store the result — interleave freely between two threads.
`stepThread` is one step of the property body; `runSched` runs a
schedule (a list picking which thread steps next). -/

/-- Program counter of one thread executing the `devices` property
body. -/
inductive ThreadPc where
  | check
  | fetchCall
  | store (v : List Device)
  | done (r : List Device)
deriving DecidableEq, Repr

/-- Global state: the shared cache slot, the number of backend
invocations so far, and both program counters. -/
structure ConcState where
  cache : DevCache
  backendCalls : Nat
  pc0 : ThreadPc
  pc1 : ThreadPc
deriving DecidableEq, Repr

/-- One step of a thread running the `devices` body (compare
`devicesProp`): `check` evaluates
`not self.__device_list or (now - self.__devices_fetched > 60)` on the
*current* shared state, `fetchCall` performs the backend call, `store`
writes the list and timestamp and returns it. -/
def stepThread (backend : List Device) (now : ℚ) (cache : DevCache) (cnt : Nat) :
    ThreadPc → DevCache × Nat × ThreadPc
  | .check =>
    if optFalsy cache.deviceList || decide (60 < now - cache.devicesFetched) then
      (cache, cnt, .fetchCall)
    else (cache, cnt, .done (cache.deviceList.getD []))
  | .fetchCall => (cache, cnt + 1, .store backend)
  | .store v => (⟨some v, now⟩, cnt, .done v)
  | .done r => (cache, cnt, .done r)

/-- Step the system by advancing the selected thread
(`false` = thread 0, `true` = thread 1). -/
def stepSys (backend : List Device) (now : ℚ) (s : ConcState) : Bool → ConcState
  | false =>
    let (c, n, p) := stepThread backend now s.cache s.backendCalls s.pc0
    ⟨c, n, p, s.pc1⟩
  | true =>
    let (c, n, p) := stepThread backend now s.cache s.backendCalls s.pc1
    ⟨c, n, s.pc0, p⟩

/-- Run a schedule. -/
def runSched (backend : List Device) (now : ℚ) : List Bool → ConcState → ConcState
  | [], s => s
  | b :: rest, s => runSched backend now rest (stepSys backend now s b)

/-! ## Lemmas about the stable sort and the maxima selectors -/

theorem insertSorted_ne_nil (k : α → ℚ) (x : α) (l : List α) :
    insertSorted k x l ≠ [] := by
  cases l with
  | nil => simp [insertSorted]
  | cons y ys =>
    simp only [insertSorted]
    split <;> simp

theorem stableSort_eq_nil_iff (k : α → ℚ) (l : List α) :
    stableSort k l = [] ↔ l = [] := by
  cases l with
  | nil => simp [stableSort]
  | cons x xs => simp [stableSort, insertSorted_ne_nil]

theorem perm_insertSorted (k : α → ℚ) (x : α) (l : List α) :
    (insertSorted k x l).Perm (x :: l) := by
  induction l with
  | nil => simp [insertSorted]
  | cons y ys ih =>
    simp only [insertSorted]
    split
    · exact List.Perm.refl _
    · exact ((ih.cons y).trans (List.Perm.swap x y ys))

theorem perm_stableSort (k : α → ℚ) (l : List α) : (stableSort k l).Perm l := by
  induction l with
  | nil => exact List.Perm.refl _
  | cons x xs ih =>
    exact (perm_insertSorted k x (stableSort k xs)).trans (ih.cons x)

/-- In a `≤`-chain the head key is bounded by the last key. -/
theorem chain_head_le_last (k : α → ℚ) :
    ∀ (l : List α) (y m : α),
      List.Chain' (fun a b => k a ≤ k b) (y :: l) →
      (y :: l).getLast? = some m → k y ≤ k m
  | [], y, m, _, hm => by
    simp only [List.getLast?_singleton, Option.some_inj] at hm
    exact hm ▸ le_refl _
  | z :: zs, y, m, h, hm => by
    have h1 : k y ≤ k z := (List.chain'_cons.mp h).1
    have hm' : (z :: zs).getLast? = some m := by
      simpa [List.getLast?_cons_cons] using hm
    exact le_trans h1 (chain_head_le_last k zs z m (List.chain'_cons.mp h).2 hm')

theorem getLast?_cons_of_ne_nil (y : α) (t : List α) (h : t ≠ []) :
    (y :: t).getLast? = t.getLast? := by
  cases t with
  | nil => exact absurd rfl h
  | cons z zs => simp [List.getLast?_cons_cons]

theorem head?_insertSorted (k : α → ℚ) (x : α) (l : List α) :
    (insertSorted k x l).head? = some x ∨ (insertSorted k x l).head? = l.head? := by
  cases l with
  | nil => simp [insertSorted]
  | cons y ys =>
    simp only [insertSorted]
    split
    · simp
    · simp

theorem chain_insertSorted (k : α → ℚ) (x : α) (l : List α)
    (h : List.Chain' (fun a b => k a ≤ k b) l) :
    List.Chain' (fun a b => k a ≤ k b) (insertSorted k x l) := by
  induction l with
  | nil => simp [insertSorted]
  | cons y ys ih =>
    simp only [insertSorted]
    split
    · exact List.Chain'.cons (by assumption) h
    · have hy : k y ≤ k x := le_of_not_le (by assumption)
      have hys := (List.chain'_cons'.mp h).2
      refine List.chain'_cons'.mpr ⟨?_, ih hys⟩
      intro z hz
      rcases head?_insertSorted k x ys with hh | hh
      · rw [hh, Option.mem_def, Option.some_inj] at hz
        exact hz ▸ hy
      · rw [hh] at hz
        exact (List.chain'_cons'.mp h).1 z hz

theorem chain_stableSort (k : α → ℚ) (l : List α) :
    List.Chain' (fun a b => k a ≤ k b) (stableSort k l) := by
  induction l with
  | nil => simp [stableSort]
  | cons x xs ih => exact chain_insertSorted k x _ ih

/-- Last element of an insertion into a sorted list: either the old last
element keeps its place (when its key dominates), or `x` becomes the new
last element. -/
theorem getLast?_insertSorted (k : α → ℚ) (x : α) :
    ∀ (l : List α), List.Chain' (fun a b => k a ≤ k b) l →
      (insertSorted k x l).getLast? =
        some (Option.elim l.getLast? x (fun m => if k x ≤ k m then m else x))
  | [], _ => by simp [insertSorted]
  | y :: ys, h => by
    simp only [insertSorted]
    by_cases hxy : k x ≤ k y
    · rw [if_pos hxy]
      obtain ⟨m, hm⟩ : ∃ m, (y :: ys).getLast? = some m :=
        Option.ne_none_iff_exists'.mp (by simp)
      have hxm : k x ≤ k m := le_trans hxy (chain_head_le_last k ys y m h hm)
      rw [List.getLast?_cons_cons, hm]
      simp [hxm]
    · rw [if_neg hxy]
      have hyx : k y ≤ k x := le_of_not_le hxy
      cases ys with
      | nil =>
        simp [insertSorted, List.getLast?_cons_cons, hxy]
      | cons z zs =>
        have hys := (List.chain'_cons'.mp h).2
        have ih := getLast?_insertSorted k x (z :: zs) hys
        rw [getLast?_cons_of_ne_nil y _ (insertSorted_ne_nil k x (z :: zs)), ih,
          getLast?_cons_of_ne_nil y (z :: zs) (by simp)]

theorem lastMax_cons_none (k : α → ℚ) (x : α) {xs : List α}
    (h : lastMax k xs = none) : lastMax k (x :: xs) = some x := by
  simp [lastMax, h]

theorem lastMax_cons_some (k : α → ℚ) (x : α) {xs : List α} {y : α}
    (h : lastMax k xs = some y) :
    lastMax k (x :: xs) = if k x ≤ k y then some y else some x := by
  simp [lastMax, h]

theorem lastMax_isSome (k : α → ℚ) (x : α) (xs : List α) :
    ∃ m, lastMax k (x :: xs) = some m := by
  cases h : lastMax k xs with
  | none => exact ⟨x, lastMax_cons_none k x h⟩
  | some y =>
    by_cases hk : k x ≤ k y
    · exact ⟨y, by rw [lastMax_cons_some k x h, if_pos hk]⟩
    · exact ⟨x, by rw [lastMax_cons_some k x h, if_neg hk]⟩

theorem lastMax_eq_none_iff (k : α → ℚ) (l : List α) :
    lastMax k l = none ↔ l = [] := by
  cases l with
  | nil => simp [lastMax]
  | cons x xs =>
    obtain ⟨m, hm⟩ := lastMax_isSome k x xs
    simp [hm]

/-- The last element of the stable sort is the last maximum of the
original list. -/
theorem getLast?_stableSort (k : α → ℚ) (l : List α) :
    (stableSort k l).getLast? = lastMax k l := by
  induction l with
  | nil => simp [stableSort, lastMax]
  | cons x xs ih =>
    rw [show stableSort k (x :: xs) = insertSorted k x (stableSort k xs) from rfl,
      getLast?_insertSorted k x _ (chain_stableSort k xs), ih]
    cases h : lastMax k xs with
    | none =>
      rw [lastMax_cons_none k x h]
      simp
    | some m =>
      rw [lastMax_cons_some k x h]
      simp only [Option.elim_some]
      split <;> simp

theorem lastMax_mem (k : α → ℚ) :
    ∀ (l : List α) (m : α), lastMax k l = some m → m ∈ l
  | [], m, h => by simp [lastMax] at h
  | x :: xs, m, h => by
    cases hx : lastMax k xs with
    | none =>
      rw [lastMax_cons_none k x hx, Option.some_inj] at h
      simp [h]
    | some y =>
      rw [lastMax_cons_some k x hx] at h
      by_cases hk : k x ≤ k y
      · rw [if_pos hk, Option.some_inj] at h
        exact List.mem_cons_of_mem x (h ▸ lastMax_mem k xs y hx)
      · rw [if_neg hk, Option.some_inj] at h
        simp [h]

theorem lastMax_ge (k : α → ℚ) :
    ∀ (l : List α) (m : α), lastMax k l = some m → ∀ a ∈ l, k a ≤ k m
  | [], m, h => by simp [lastMax] at h
  | x :: xs, m, h => by
    intro a ha
    cases hx : lastMax k xs with
    | none =>
      have hxs : xs = [] := (lastMax_eq_none_iff k xs).mp hx
      rw [lastMax_cons_none k x hx, Option.some_inj] at h
      subst hxs
      simp only [List.mem_singleton] at ha
      exact ha ▸ h ▸ le_refl _
    | some y =>
      rw [lastMax_cons_some k x hx] at h
      rcases List.mem_cons.mp ha with rfl | ha'
      · by_cases hk : k a ≤ k y
        · rw [if_pos hk, Option.some_inj] at h
          exact h ▸ hk
        · rw [if_neg hk, Option.some_inj] at h
          exact h ▸ le_refl _
      · have hy : k a ≤ k y := lastMax_ge k xs y hx a ha'
        by_cases hk : k x ≤ k y
        · rw [if_pos hk, Option.some_inj] at h
          exact h ▸ hy
        · rw [if_neg hk, Option.some_inj] at h
          exact h ▸ le_trans hy (le_of_not_le hk)

theorem firstMax_cons_none (k : α → ℚ) (x : α) {xs : List α}
    (h : firstMax k xs = none) : firstMax k (x :: xs) = some x := by
  simp [firstMax, h]

theorem firstMax_cons_some (k : α → ℚ) (x : α) {xs : List α} {y : α}
    (h : firstMax k xs = some y) :
    firstMax k (x :: xs) = if k x < k y then some y else some x := by
  simp [firstMax, h]

theorem firstMax_isSome (k : α → ℚ) (x : α) (xs : List α) :
    ∃ m, firstMax k (x :: xs) = some m := by
  cases h : firstMax k xs with
  | none => exact ⟨x, firstMax_cons_none k x h⟩
  | some y =>
    by_cases hk : k x < k y
    · exact ⟨y, by rw [firstMax_cons_some k x h, if_pos hk]⟩
    · exact ⟨x, by rw [firstMax_cons_some k x h, if_neg hk]⟩

theorem firstMax_eq_none_iff (k : α → ℚ) (l : List α) :
    firstMax k l = none ↔ l = [] := by
  cases l with
  | nil => simp [firstMax]
  | cons x xs =>
    obtain ⟨m, hm⟩ := firstMax_isSome k x xs
    simp [hm]

theorem firstMax_ge (k : α → ℚ) :
    ∀ (l : List α) (m : α), firstMax k l = some m → ∀ a ∈ l, k a ≤ k m
  | [], m, h => by simp [firstMax] at h
  | x :: xs, m, h => by
    intro a ha
    cases hx : firstMax k xs with
    | none =>
      have hxs : xs = [] := (firstMax_eq_none_iff k xs).mp hx
      rw [firstMax_cons_none k x hx, Option.some_inj] at h
      subst hxs
      simp only [List.mem_singleton] at ha
      exact ha ▸ h ▸ le_refl _
    | some y =>
      rw [firstMax_cons_some k x hx] at h
      rcases List.mem_cons.mp ha with rfl | ha'
      · by_cases hk : k a < k y
        · rw [if_pos hk, Option.some_inj] at h
          exact h ▸ le_of_lt hk
        · rw [if_neg hk, Option.some_inj] at h
          exact h ▸ le_refl _
      · have hy : k a ≤ k y := firstMax_ge k xs y hx a ha'
        by_cases hk : k x < k y
        · rw [if_pos hk, Option.some_inj] at h
          exact h ▸ hy
        · rw [if_neg hk, Option.some_inj] at h
          exact h ▸ le_trans hy (le_of_not_lt hk)

theorem firstMax_mem (k : α → ℚ) :
    ∀ (l : List α) (m : α), firstMax k l = some m → m ∈ l
  | [], m, h => by simp [firstMax] at h
  | x :: xs, m, h => by
    cases hx : firstMax k xs with
    | none =>
      rw [firstMax_cons_none k x hx, Option.some_inj] at h
      simp [h]
    | some y =>
      rw [firstMax_cons_some k x hx] at h
      by_cases hk : k x < k y
      · rw [if_pos hk, Option.some_inj] at h
        exact List.mem_cons_of_mem x (h ▸ firstMax_mem k xs y hx)
      · rw [if_neg hk, Option.some_inj] at h
        simp [h]

/-- Appending one element on the right updates `lastMax`, the appended
element winning ties. -/
theorem lastMax_append_singleton (k : α → ℚ) :
    ∀ (l : List α) (x : α),
      lastMax k (l ++ [x]) =
        some (Option.elim (lastMax k l) x (fun y => if k y ≤ k x then x else y))
  | [], x => by
    rw [List.nil_append,
      lastMax_cons_none k x (show lastMax k ([] : List α) = none from rfl)]
    rfl
  | a :: t, x => by
    rw [List.cons_append]
    have ht := lastMax_append_singleton k t x
    cases hlt : lastMax k t with
    | none =>
      have ht0 : t = [] := (lastMax_eq_none_iff k t).mp hlt
      subst ht0
      have hx1 : lastMax k ([x] : List α) = some x :=
        lastMax_cons_none k x (show lastMax k ([] : List α) = none from rfl)
      have hA : lastMax k ([a] : List α) = some a :=
        lastMax_cons_none k a (show lastMax k ([] : List α) = none from rfl)
      rw [List.nil_append, hA]
      simp only [Option.elim_some]
      by_cases h : k a ≤ k x
      · rw [lastMax_cons_some k a hx1, if_pos h, if_pos h]
      · rw [lastMax_cons_some k a hx1, if_neg h, if_neg h]
    | some y =>
      rw [hlt] at ht
      simp only [Option.elim_some] at ht
      rw [lastMax_cons_some k a ht, lastMax_cons_some k a hlt]
      by_cases h1 : k y ≤ k x
      · simp only [if_pos h1]
        by_cases h2 : k a ≤ k y
        · have h3 : k a ≤ k x := le_trans h2 h1
          simp [h2, h3, h1]
        · by_cases h3 : k a ≤ k x
          · simp [h2, h3]
          · simp [h2, h3]
      · simp only [if_neg h1]
        by_cases h2 : k a ≤ k y
        · simp [h1, h2]
        · have h3 : ¬ k a ≤ k x := fun hax => h2 (le_trans hax (le_of_not_le h1))
          simp [h1, h2, h3]

/-- On the reversed list the *last* maximum is the *first* maximum of
the original list. -/
theorem lastMax_reverse (k : α → ℚ) :
    ∀ (l : List α), lastMax k l.reverse = firstMax k l
  | [] => by simp [lastMax, firstMax]
  | a :: t => by
    rw [List.reverse_cons, lastMax_append_singleton k t.reverse a,
      lastMax_reverse k t]
    cases h : firstMax k t with
    | none =>
      rw [firstMax_cons_none k a h]
      simp
    | some y =>
      rw [firstMax_cons_some k a h]
      simp only [Option.elim_some]
      by_cases h1 : k y ≤ k a
      · rw [if_pos h1, if_neg (not_lt.mpr h1)]
      · rw [if_neg h1, if_pos (lt_of_not_le h1)]

/-- `firstMax` really is the earliest maximum: the list splits into a
strictly-smaller prefix, the chosen element, and a no-larger suffix. -/
theorem firstMax_decomp (k : α → ℚ) :
    ∀ (l : List α) (m : α), firstMax k l = some m →
      ∃ l₁ l₂, l = l₁ ++ m :: l₂ ∧ (∀ a ∈ l₁, k a < k m) ∧ (∀ a ∈ l₂, k a ≤ k m)
  | [], m, h => by simp [firstMax] at h
  | x :: xs, m, h => by
    cases hx : firstMax k xs with
    | none =>
      have hxs : xs = [] := (firstMax_eq_none_iff k xs).mp hx
      rw [firstMax_cons_none k x hx, Option.some_inj] at h
      subst hxs
      exact ⟨[], [], by simp [h], by simp, by simp⟩
    | some y =>
      rw [firstMax_cons_some k x hx] at h
      by_cases hk : k x < k y
      · rw [if_pos hk, Option.some_inj] at h
        subst h
        obtain ⟨l₁, l₂, hsplit, hslt, hsle⟩ := firstMax_decomp k xs y hx
        refine ⟨x :: l₁, l₂, by simp [hsplit], ?_, hsle⟩
        intro a ha
        rcases List.mem_cons.mp ha with rfl | ha'
        · exact hk
        · exact hslt a ha'
      · rw [if_neg hk, Option.some_inj] at h
        subst h
        refine ⟨[], xs, by simp, by simp, ?_⟩
        intro a ha
        exact le_trans (firstMax_ge k xs y hx a ha) (le_of_not_lt hk)

/-- `best_result` on a non-empty list returns the first maximum. -/
theorem best_result_cons (x : ℚ × α) (xs : List (ℚ × α)) :
    ∃ p, firstMax resKey (x :: xs) = some p ∧
      best_result (x :: xs) = .found p.1 p.2 := by
  obtain ⟨p, hp⟩ := firstMax_isSome (resKey (α := α)) x xs
  refine ⟨p, hp, ?_⟩
  have h1 : (stableSort resKey ((x :: xs).reverse)).getLast? = some p := by
    rw [getLast?_stableSort, lastMax_reverse, hp]
  simp only [best_result]
  rw [List.getLastD_eq_getLast?, h1]
  rfl

/-! ## Claim C9: `best_result` -/

/-- C9: `best_result` applied to a non-empty list of
`(confidence, data)` tuples returns a tuple whose confidence is the
maximum confidence in the list, and among tuples tying on that maximum
the one occurring earliest in the input wins (the decomposition below:
every tuple before the returned one scores strictly less, every tuple
after it scores no more); applied to the empty list it returns
`NOTHING_FOUND`. -/
theorem claim_C9 (α : Type) (l : List (ℚ × α)) :
    (l = [] → best_result l = QueryResult.nothingFound) ∧
    (l ≠ [] → ∃ p l₁ l₂, best_result l = QueryResult.found p.1 p.2 ∧
      l = l₁ ++ p :: l₂ ∧ (∀ q ∈ l₁, q.1 < p.1) ∧ (∀ q ∈ l₂, q.1 ≤ p.1)) := by
  constructor
  · rintro rfl
    rfl
  · intro hne
    obtain ⟨x, xs, rfl⟩ := List.exists_cons_of_ne_nil hne
    obtain ⟨p, hp, hbr⟩ := best_result_cons x xs
    obtain ⟨l₁, l₂, hsplit, hslt, hsle⟩ := firstMax_decomp resKey (x :: xs) p hp
    exact ⟨p, l₁, l₂, hbr, hsplit, hslt, hsle⟩

/-- Witness for C9 at the list `[(1, 10), (2, 20), (2, 30)]`: the first
of the two maximal-confidence tuples is returned. -/
theorem claim_C9_witness :
    ([((1:ℚ), (10:ℕ)), (2, 20), (2, 30)] : List (ℚ × ℕ)) ≠ [] ∧
    (∃ p l₁ l₂,
      best_result [((1:ℚ), (10:ℕ)), (2, 20), (2, 30)] = QueryResult.found p.1 p.2 ∧
      ([((1:ℚ), (10:ℕ)), (2, 20), (2, 30)] : List (ℚ × ℕ)) = l₁ ++ p :: l₂ ∧
      (∀ q ∈ l₁, q.1 < p.1) ∧ (∀ q ∈ l₂, q.1 ≤ p.1)) :=
  ⟨by decide, (claim_C9 ℕ [((1:ℚ), (10:ℕ)), (2, 20), (2, 30)]).2 (by decide)⟩

/-! ## Claim C5: `best_confidence` / `titleScore` -/

/-- Python `int()` is monotone. -/
theorem pyInt_mono {a b : ℚ} (h : a ≤ b) : pyInt a ≤ pyInt b := by
  unfold pyInt
  by_cases ha : 0 ≤ a
  · rw [if_pos ha, if_pos (le_trans ha h)]
    exact Int.floor_le_floor h
  · rw [if_neg ha]
    by_cases hb : 0 ≤ b
    · rw [if_pos hb]
      have h1 : (0:ℤ) ≤ ⌊b⌋ := Int.floor_nonneg.mpr hb
      have h2 : (0:ℤ) ≤ ⌊-a⌋ := by
        have : (0:ℚ) ≤ -a := by linarith [lt_of_not_ge ha]
        exact Int.floor_nonneg.mpr this
      omega
    · rw [if_neg hb]
      have h1 : -b ≤ -a := by linarith
      have h2 := Int.floor_le_floor h1
      omega

/-- C5: `best_confidence` (the spec's `titleScore`) returns the maximum
of the similarity of the raw lowercased title against the query and the
similarity of the stripped title (trailing parenthesized group or
trailing dash suffix removed), so its result equals or exceeds the raw
similarity alone; the 0-100 variant dominates the scaled raw similarity
as well; on the spec's example the stripped variant is exactly
`"hello nasty"`. -/
theorem claim_C5 (fm : String → String → ℚ) (title query : String) :
    best_confidence fm title query =
      max (fm (pyLower title) query) (fm (stripParen (pyLower title)) query) ∧
    fm (pyLower title) query ≤ best_confidence fm title query ∧
    ((pyInt (fm (pyLower title) query * 100) : ℤ) : ℚ) ≤
      best_confidence100 fm title query ∧
    stripParen (pyLower "Hello Nasty (Deluxe Version/Remastered 2009)") =
      "hello nasty" := by
  refine ⟨rfl, le_max_left _ _, ?_, by decide⟩
  have h1 : fm (pyLower title) query * 100 ≤ best_confidence fm title query * 100 :=
    mul_le_mul_of_nonneg_right (le_max_left _ _) (by norm_num)
  have h2 : pyInt (fm (pyLower title) query * 100) ≤
      pyInt (best_confidence fm title query * 100) := pyInt_mono h1
  unfold best_confidence100
  exact_mod_cast h2

/-! ## Claim C1: the generic-query resolver -/

theorem stageCheck_direct (r : QueryResult α) (h : directHit (qrConf r)) :
    stageCheck r = .direct r := by
  cases r with
  | nothingFound =>
    exact absurd h (by simp [qrConf, directHit])
  | found c d =>
    have h' : directHit c := h
    simp only [stageCheck]
    rw [if_pos h']

theorem stageCheck_acc (r : QueryResult α) (h : ¬ directHit (qrConf r)) :
    stageCheck r = .acc (accList r) := by
  cases r with
  | nothingFound => rfl
  | found c d =>
    have h' : ¬ directHit c := h
    simp only [stageCheck, accList]
    rw [if_neg h']
    by_cases hm : matchHit c
    · rw [if_pos hm, if_pos ⟨hm, h'⟩]
    · rw [if_neg hm, if_neg (fun hh => hm hh.1)]

/-- `query_song` of `src/skill_spotify/__init__.py` never returns a
found confidence: its non-empty paths raise `NameError` inside the
broken module-level `best_confidence`. -/
theorem query_songInit_no_found (fm : String → String → ℚ)
    (search : String → Option (List Track)) (song : String) (bonus : ℚ)
    (c : ℚ) (d : List Track) :
    query_songInit fm search song bonus ≠ .returned (.found c d) := by
  intro h
  simp only [query_songInit] at h
  cases hbs : bySplit song with
  | none =>
    rw [hbs] at h
    simp at h
  | some parts =>
    rw [hbs] at h
    obtain ⟨name, term, dsp⟩ := parts
    simp only [] at h
    cases hs : search term with
    | none =>
      rw [hs] at h
      simp at h
    | some items =>
      rw [hs] at h
      cases items with
      | nil => simp at h
      | cons d0 rest => simp [best_confidenceInit] at h

/-- `query_album` of `src/skill_spotify/__init__.py` never returns a
found confidence either. -/
theorem query_albumInit_no_found (fm : String → String → ℚ)
    (search : String → Option (List Album)) (album : String) (bonus : ℚ)
    (c : ℚ) (d : List Album) :
    query_albumInit fm search album bonus ≠ .returned (.found c d) := by
  intro h
  simp only [query_albumInit] at h
  cases hbs : bySplit album with
  | none =>
    rw [hbs] at h
    simp at h
  | some parts =>
    rw [hbs] at h
    obtain ⟨name, term, dsp⟩ := parts
    simp only [] at h
    cases hs : search term with
    | none =>
      rw [hs] at h
      simp at h
    | some items =>
      rw [hs] at h
      cases items with
      | nil => simp at h
      | cons a0 rest => simp [best_confidenceInit] at h

/-- `get_best_user_playlist` of `src/skill_spotify/__init__.py` raises
on every non-empty playlist catalogue. -/
theorem get_best_user_playlistInit_raises (keys : List String) (playlist : String)
    (hne : keys ≠ []) : get_best_user_playlistInit keys playlist = .raised := by
  cases keys with
  | nil => exact absurd rfl hne
  | cons k ks => simp [get_best_user_playlistInit, match_oneInit]

/-- C1 (code bug): the claimed fixed order, strict 0.8/0.5 thresholds
and short-circuiting hold for the lookups `SpotifyClient.generic_query`
can actually evaluate — user playlist, artist, track, album, with the
first confidence above 0.8 returned at once and later lookups left
unevaluated (conjuncts 1-4) — but the claimed completion ("after all
lookups it returns the single best-scoring accumulated candidate, or
NOTHING_FOUND") is unreachable: every run not short-circuited by the
first four lookups evaluates the fifth, which calls the nonexistent
`self.get_best_public_playlist` and raises `AttributeError`
(conjunct 5; conjunct 6 instantiates it with all-empty lookups, where
the claim and the docstring promise `NOTHING_FOUND`).  The sibling
`SkillSpotify.generic_query` of `__init__.py` has the fifth method but
its own song, album and user-playlist lookups raise `NameError` on any
non-empty data (conjuncts 7-9), so neither implementation can return
an accumulated best candidate. -/
theorem claim_C1 (α : Type) (L : GQInSC α) (fm : String → String → ℚ) :
    (directHit L.userPlaylist.2 → generic_querySC L =
      some (.found L.userPlaylist.2
        (if strTruthy L.userPlaylist.1 then
          L.playlistData (L.userPlaylist.1.getD "") else L.emptyData), 1)) ∧
    (¬ directHit L.userPlaylist.2 → directHit (qrConf L.artist) →
      generic_querySC L = some (L.artist, 2)) ∧
    (¬ directHit L.userPlaylist.2 → ¬ directHit (qrConf L.artist) →
      directHit (qrConf L.song) → generic_querySC L = some (L.song, 3)) ∧
    (¬ directHit L.userPlaylist.2 → ¬ directHit (qrConf L.artist) →
      ¬ directHit (qrConf L.song) → directHit (qrConf L.album) →
      generic_querySC L = some (L.album, 4)) ∧
    (¬ directHit L.userPlaylist.2 → ¬ directHit (qrConf L.artist) →
      ¬ directHit (qrConf L.song) → ¬ directHit (qrConf L.album) →
      generic_querySC L = none) ∧
    generic_querySC (⟨L.emptyData, (none, 0), L.playlistData,
      .nothingFound, .nothingFound, .nothingFound⟩ : GQInSC α) = none ∧
    (∀ search song bonus c d,
      query_songInit fm search song bonus ≠ .returned (.found c d)) ∧
    (∀ search album bonus c d,
      query_albumInit fm search album bonus ≠ .returned (.found c d)) ∧
    (∀ keys playlist, keys ≠ [] →
      get_best_user_playlistInit keys playlist = .raised) := by
  refine ⟨?_, ?_, ?_, ?_, ?_, ?_,
    fun search song bonus c d => query_songInit_no_found fm search song bonus c d,
    fun search album bonus c d => query_albumInit_no_found fm search album bonus c d,
    fun keys playlist hne => get_best_user_playlistInit_raises keys playlist hne⟩
  · intro h1
    simp only [generic_querySC]
    rw [if_pos h1]
  · intro h1 h2
    simp only [generic_querySC]
    rw [if_neg h1, stageCheck_direct L.artist h2]
  · intro h1 h2 h3
    simp only [generic_querySC]
    rw [if_neg h1, stageCheck_acc L.artist h2, stageCheck_direct L.song h3]
  · intro h1 h2 h3 h4
    simp only [generic_querySC]
    rw [if_neg h1, stageCheck_acc L.artist h2, stageCheck_acc L.song h3,
      stageCheck_direct L.album h4]
  · intro h1 h2 h3 h4
    simp only [generic_querySC]
    rw [if_neg h1, stageCheck_acc L.artist h2, stageCheck_acc L.song h3,
      stageCheck_acc L.album h4]
  · have hd : ¬ directHit (0:ℚ) := fun h => h.1 rfl
    simp [generic_querySC, stageCheck, hd]

unseal Rat.add Rat.sub Rat.mul Rat.inv Nat.gcd in
/-- Witness for C1: a 0.9 user-playlist hit short-circuits after one
lookup; a 0.6 playlist hit is accumulated but the run still crashes at
the fifth lookup; a one-element playlist catalogue makes the
`__init__.py` playlist lookup raise. -/
theorem claim_C1_witness :
    generic_querySC (⟨"E", (some "rock", 9/10), id, .nothingFound, .nothingFound,
      .nothingFound⟩ : GQInSC String) = some (.found (9/10) "rock", 1) ∧
    generic_querySC (⟨"E", (some "rock", 3/5), id, .nothingFound, .nothingFound,
      .nothingFound⟩ : GQInSC String) = none ∧
    get_best_user_playlistInit ["rock"] "rock" = .raised :=
  ⟨(claim_C1 String ⟨"E", (some "rock", 9/10), id, .nothingFound, .nothingFound,
      .nothingFound⟩ (fun _ _ => 0)).1 (by decide),
   (claim_C1 String ⟨"E", (some "rock", 3/5), id, .nothingFound, .nothingFound,
      .nothingFound⟩ (fun _ _ => 0)).2.2.2.2.1 (by decide) (by decide) (by decide)
      (by decide),
   (claim_C1 String ⟨"E", (none, 0), id, .nothingFound, .nothingFound,
      .nothingFound⟩ (fun _ _ => 0)).2.2.2.2.2.2.2.2 ["rock"] "rock" (by decide)⟩

/-! ## The track-selection pipeline -/

theorem trackPipeline_cons (scored : List (ℚ × Track)) (b : ℚ × Track)
    (rest : List (ℚ × Track)) (h : (stableSort resKey scored).reverse = b :: rest) :
    trackPipeline scored =
      (stableSort popKey
        ((b :: rest).filter (fun t => decide (b.1 - 1/10 < t.1)))).getLast? := by
  unfold trackPipeline
  rw [h]

/-- The track pipeline returns a scored track lying strictly within 0.1
of the maximal score and having maximal popularity among the tracks in
that strict band. -/
theorem trackPipeline_spec (scored : List (ℚ × Track)) (hne : scored ≠ []) :
    ∃ w q, trackPipeline scored = some w ∧ w ∈ scored ∧ q ∈ scored ∧
      (∀ r ∈ scored, r.1 ≤ q.1) ∧ q.1 - 1/10 < w.1 ∧
      (∀ r ∈ scored, q.1 - 1/10 < r.1 → r.2.popularity ≤ w.2.popularity) := by
  obtain ⟨b, hb⟩ : ∃ b, lastMax resKey scored = some b := by
    obtain ⟨x, xs, rfl⟩ := List.exists_cons_of_ne_nil hne
    exact lastMax_isSome resKey x xs
  have hsrt : (stableSort resKey scored).getLast? = some b := by
    rw [getLast?_stableSort, hb]
  have hrev : (stableSort resKey scored).reverse.head? = some b := by
    rw [List.head?_reverse, hsrt]
  obtain ⟨rest, hrest⟩ : ∃ rest, (stableSort resKey scored).reverse = b :: rest := by
    cases hx : (stableSort resKey scored).reverse with
    | nil => rw [hx] at hrev; cases hrev
    | cons y ys =>
      rw [hx] at hrev
      simp only [List.head?_cons, Option.some_inj] at hrev
      exact ⟨ys, by rw [hrev]⟩
  have hperm : ((stableSort resKey scored).reverse).Perm scored :=
    (List.reverse_perm _).trans (perm_stableSort resKey scored)
  have hkeptmem : ∀ u, u ∈ (b :: rest).filter (fun t => decide (b.1 - 1/10 < t.1)) ↔
      (u ∈ scored ∧ b.1 - 1/10 < u.1) := by
    intro u
    rw [← hrest, List.mem_filter]
    constructor
    · rintro ⟨h1, h2⟩
      exact ⟨hperm.mem_iff.mp h1, of_decide_eq_true h2⟩
    · rintro ⟨h1, h2⟩
      exact ⟨hperm.mem_iff.mpr h1, decide_eq_true h2⟩
  have hbkept : b ∈ (b :: rest).filter (fun t => decide (b.1 - 1/10 < t.1)) := by
    rw [hkeptmem]
    exact ⟨lastMax_mem resKey scored b hb, by linarith⟩
  obtain ⟨w, hw⟩ : ∃ w, lastMax popKey
      ((b :: rest).filter (fun t => decide (b.1 - 1/10 < t.1))) = some w := by
    cases hk : (b :: rest).filter (fun t => decide (b.1 - 1/10 < t.1)) with
    | nil =>
      rw [hk] at hbkept
      cases hbkept
    | cons y ys => exact lastMax_isSome popKey y ys
  have hpipe : trackPipeline scored = some w := by
    rw [trackPipeline_cons scored b rest hrest, getLast?_stableSort, hw]
  have hwkept := lastMax_mem popKey _ w hw
  have hwge := lastMax_ge popKey _ w hw
  rw [hkeptmem] at hwkept
  refine ⟨w, b, hpipe, hwkept.1, lastMax_mem resKey scored b hb,
    lastMax_ge resKey scored b hb, hwkept.2, ?_⟩
  intro r hr hband
  exact hwge r ((hkeptmem r).mpr ⟨hr, hband⟩)

/-! ## Claim C2: confidence clamping -/

theorem pyInt_nonneg {q : ℚ} (h : 0 ≤ q) : 0 ≤ pyInt q := by
  unfold pyInt
  rw [if_pos h]
  exact Int.floor_nonneg.mpr h

theorem best_confidence_nonneg (fm : String → String → ℚ)
    (hfm : ∀ a b, 0 ≤ fm a b) (t q : String) : 0 ≤ best_confidence fm t q :=
  le_trans (hfm _ _) (le_max_left _ _)

theorem best_confidence100_nonneg (fm : String → String → ℚ)
    (hfm : ∀ a b, 0 ≤ fm a b) (t q : String) : 0 ≤ best_confidence100 fm t q := by
  unfold best_confidence100
  have h : (0:ℤ) ≤ pyInt (best_confidence fm t q * 100) :=
    pyInt_nonneg (mul_nonneg (best_confidence_nonneg fm hfm t q) (by norm_num))
  exact_mod_cast h

unseal Rat.add Rat.sub Rat.mul Rat.inv Nat.gcd in
/-- C2 counterexample: the claim asserts the clamp for `query_song` as
well, but the `query_song` of `src/skill_spotify/spotify.py` (and of
`src/skill_spotify/__init__.py`) returns `tracks[-1][0] + bonus` with no
clamp.  With a similarity function that is 1 on identical strings (as
the real Damerau-Levenshtein similarity is), an exact title match with
the caller bonus 0.1 (`specific_query` passes 0.1 when the phrase names
the backend) yields confidence 1.1, beyond the maximum 1.0 of the
scale. -/
theorem claim_C2_counterexample :
    query_songU (fun a b => if a = b then (1:ℚ) else 0)
      (fun _ => some [⟨"x", 0, ["a"]⟩]) "x" (1/10) =
      some (.found (11/10) [⟨"x", 0, ["a"]⟩]) ∧
    (1:ℚ) < 11/10 ∧
    (∀ a b : String, 0 ≤ (if a = b then (1:ℚ) else 0) ∧
      (if a = b then (1:ℚ) else 0) ≤ 1) ∧
    (0:ℚ) ≤ 1/10 := by
  refine ⟨by decide, by norm_num, ?_, by norm_num⟩
  intro a b
  split <;> norm_num

/-- C2 (amended): with the similarity functions valued in `[0, 1]` and a
nonnegative caller bonus, `query_artist` and `query_album` (both
implementations) and the `query_song` of `src/spotify.py` always return
confidences within their scale (`[0, 1]` resp. `[0, 100]`); the
`query_song` and `query_album` of `src/skill_spotify/__init__.py`
never return a found confidence at all (they raise on every non-empty
result); only the legacy `query_song` of `src/skill_spotify/spotify.py`
(see the counterexample) returns a confidence beyond its scale. -/
theorem claim_C2_amended (fm fmTok : String → String → ℚ)
    (hfm : ∀ a b, 0 ≤ fm a b ∧ fm a b ≤ 1)
    (hfmTok : ∀ a b, 0 ≤ fmTok a b ∧ fmTok a b ≤ 1)
    (bonus : ℚ) (hbonus : 0 ≤ bonus) :
    C2Prop fm fmTok bonus := by
  have hfm0 : ∀ a b, 0 ≤ fm a b := fun a b => (hfm a b).1
  refine ⟨?_, ?_, ?_, ?_, ?_,
    fun searchT song c d => query_songInit_no_found fm searchT song bonus c d,
    fun searchAl album c d => query_albumInit_no_found fm searchAl album bonus c d⟩
  · -- query_artistU
    intro searchA artist c d h
    simp only [query_artistU] at h
    cases hs : searchA artist with
    | none =>
      rw [hs] at h
      simp at h
    | some items =>
      rw [hs] at h
      cases items with
      | nil => simp at h
      | cons a rest =>
        simp only [] at h
        injection h with h1 h2
        subst h1
        constructor
        · exact le_min (add_nonneg (hfm0 _ _) (by linarith)) (by norm_num)
        · exact min_le_right _ _
  · -- query_artist100
    intro searchA artist c d h
    simp only [query_artist100] at h
    cases hs : searchA artist with
    | none =>
      rw [hs] at h
      simp at h
    | some items =>
      rw [hs] at h
      cases items with
      | nil => simp at h
      | cons a rest =>
        simp only [] at h
        injection h with h1 h2
        subst h1
        constructor
        · exact le_min (mul_nonneg (hfm0 _ _) (by norm_num)) (by norm_num)
        · exact min_le_right _ _
  · -- query_albumU
    intro searchAl album c d h
    simp only [query_albumU] at h
    cases hbs : bySplit album with
    | none =>
      rw [hbs] at h
      cases h
    | some parts =>
      rw [hbs] at h
      obtain ⟨name, term, didSplit⟩ := parts
      simp only [] at h
      cases hs : searchAl term with
      | none =>
        rw [hs] at h
        simp at h
      | some items =>
        rw [hs] at h
        cases items with
        | nil => simp at h
        | cons a rest =>
          simp only [Option.some_inj] at h
          injection h with h1 h2
          subst h1
          have hb : (0:ℚ) ≤ if didSplit then bonus + 1/10 else bonus := by
            split <;> linarith
          constructor
          · exact le_min (add_nonneg (best_confidence_nonneg fm hfm0 _ _) hb)
              (by norm_num)
          · exact min_le_right _ _
  · -- query_album100
    intro searchAl album c d h
    simp only [query_album100] at h
    cases hbs : bySplit album with
    | none =>
      rw [hbs] at h
      cases h
    | some parts =>
      rw [hbs] at h
      obtain ⟨name, term, didSplit⟩ := parts
      simp only [] at h
      cases hs : searchAl term with
      | none =>
        rw [hs] at h
        simp at h
      | some items =>
        rw [hs] at h
        cases items with
        | nil => simp at h
        | cons a rest =>
          simp only [Option.some_inj] at h
          injection h with h1 h2
          subst h1
          have hb : (0:ℚ) ≤ if didSplit then (10:ℚ) else 0 := by
            split <;> norm_num
          constructor
          · exact le_min
              (add_nonneg (best_confidence100_nonneg fm hfm0 _ _) hb) (by norm_num)
          · exact min_le_right _ _
  · -- query_song100
    intro searchT song c d h
    simp only [query_song100] at h
    cases hbs : bySplit song with
    | none =>
      rw [hbs] at h
      cases h
    | some parts =>
      rw [hbs] at h
      obtain ⟨name, term, dsp⟩ := parts
      simp only [] at h
      cases hs : searchT term with
      | none =>
        rw [hs] at h
        simp at h
      | some items =>
        rw [hs] at h
        simp only [] at h
        by_cases hlen : 0 < items.length
        · rw [if_pos hlen] at h
          have hne : items.map
              (fun d => (best_confidence100 fm d.name name, d)) ≠ [] := by
            cases items with
            | nil => simp at hlen
            | cons i is => simp
          obtain ⟨w, q, hpipe, hwmem, _, _, _, _⟩ := trackPipeline_spec _ hne
          rw [hpipe] at h
          simp only [Option.some_inj] at h
          injection h with h1 h2
          subst h1
          obtain ⟨t, _, ht⟩ := List.mem_map.mp hwmem
          have hw1 : 0 ≤ w.1 := by
            rw [← ht]
            exact best_confidence100_nonneg fm hfm0 _ _
          have hbon : (0:ℚ) ≤
              ((pyInt (fmTok term (w.2.artists.headD "") * 100) : ℤ) : ℚ) := by
            have := pyInt_nonneg (mul_nonneg (hfmTok term (w.2.artists.headD "")).1
              (by norm_num : (0:ℚ) ≤ 100))
            exact_mod_cast this
          constructor
          · exact le_min (by norm_num) (by linarith)
          · exact min_le_left _ _
        · rw [if_neg hlen] at h
          simp at h

/-- Witness for the amended C2 at the 0/1-valued similarity and bonus
0.1. -/
theorem claim_C2_amended_witness :
    C2Prop (fun a b => if a = b then (1:ℚ) else 0)
      (fun a b => if a = b then (1:ℚ) else 0) (1/10) :=
  claim_C2_amended _ _
    (fun a b => by constructor <;> (split <;> norm_num))
    (fun a b => by constructor <;> (split <;> norm_num))
    (1/10) (by norm_num)

/-! ## Claim C3: track band and popularity tie-break -/

unseal Rat.add Rat.sub Rat.mul Rat.inv Nat.gcd in
/-- C3 counterexample: the claim says tracks within 10 points (0.1 on
the unit scale) of the best score are kept.  In `src/spotify.py` the
scores are integers on the 0-100 scale while the band is the literal
`0.1`, so a track 5 points below the best (well within 10 points) is
dropped: with two tracks scoring 100 and 95 and popularities 0 and 50,
the claim predicts the 95-score track (most popular in the ties band)
but the code returns the 100-score track with popularity 0. -/
theorem claim_C3_counterexample :
    query_song100 (fun a _ => if a = "x" then (1:ℚ) else 19/20) (fun _ _ => 0)
      (fun _ => some [⟨"x", 0, ["artA"]⟩, ⟨"y", 50, ["artB"]⟩]) "x" =
      some (.found 100 [⟨"x", 0, ["artA"]⟩]) ∧
    best_confidence100 (fun a _ => if a = "x" then (1:ℚ) else 19/20) "x" "x" = 100 ∧
    best_confidence100 (fun a _ => if a = "x" then (1:ℚ) else 19/20) "y" "x" = 95 ∧
    (100:ℚ) - 10 ≤ 95 ∧
    (∃ t ∈ [(⟨"x", 0, ["artA"]⟩ : Track), ⟨"y", 50, ["artB"]⟩],
      (100:ℚ) - 10 ≤ best_confidence100
        (fun a _ => if a = "x" then (1:ℚ) else 19/20) t.name "x" ∧
      (0:ℚ) < t.popularity) := by
  refine ⟨by decide, by decide, by decide, by norm_num, ?_⟩
  refine ⟨⟨"y", 50, ["artB"]⟩, by decide, by decide, by norm_num⟩

/-- C3 (amended): for a non-empty track result set, `query_song` scores
every returned track with `best_confidence` against the (possibly
artist-split) song name, keeps only the tracks whose score *strictly*
exceeds the best score minus 0.1 (so a track exactly 0.1 below the best
is dropped — and on the integer 0-100 scale of `src/spotify.py` only
exact ties of the best survive), and among the kept tracks returns one
with maximal popularity; the confidence is the winner's score plus the
bonus and the returned item list is replaced by the singleton winner. -/
theorem claim_C3_amended (fm : String → String → ℚ)
    (search : String → Option (List Track)) (song : String) (bonus : ℚ)
    (name term : String) (dsp : Bool) (items : List Track)
    (hbs : bySplit song = some (name, term, dsp))
    (hs : search term = some items) (hne : items ≠ []) :
    ∃ w q : ℚ × Track,
      query_songU fm search song bonus = some (.found (w.1 + bonus) [w.2]) ∧
      w ∈ items.map (fun d => (best_confidence fm d.name name, d)) ∧
      q ∈ items.map (fun d => (best_confidence fm d.name name, d)) ∧
      (∀ r ∈ items.map (fun d => (best_confidence fm d.name name, d)), r.1 ≤ q.1) ∧
      q.1 - 1/10 < w.1 ∧
      (∀ r ∈ items.map (fun d => (best_confidence fm d.name name, d)),
        q.1 - 1/10 < r.1 → r.2.popularity ≤ w.2.popularity) := by
  have hlen : 0 < items.length := by
    cases items with
    | nil => exact absurd rfl hne
    | cons i is => simp
  have hscored : items.map (fun d => (best_confidence fm d.name name, d)) ≠ [] := by
    cases items with
    | nil => exact absurd rfl hne
    | cons i is => simp
  obtain ⟨w, q, hpipe, hwmem, hqmem, hqmax, hband, hpop⟩ :=
    trackPipeline_spec _ hscored
  refine ⟨w, q, ?_, hwmem, hqmem, hqmax, hband, hpop⟩
  simp only [query_songU, hbs, hs]
  rw [if_pos hlen, hpipe]

unseal Rat.add Rat.sub Rat.mul Rat.inv Nat.gcd in
/-- Witness for the amended C3: two tracks tying at score 1; the more
popular one wins. -/
theorem claim_C3_amended_witness :
    ∃ w q : ℚ × Track,
      query_songU (fun _ _ => (1:ℚ))
        (fun _ => some [⟨"x", 0, ["a"]⟩, ⟨"y", 5, ["b"]⟩]) "x" 0 =
        some (.found (w.1 + 0) [w.2]) ∧
      w ∈ ([⟨"x", 0, ["a"]⟩, ⟨"y", 5, ["b"]⟩] : List Track).map
        (fun d => (best_confidence (fun _ _ => (1:ℚ)) d.name "x", d)) ∧
      q ∈ ([⟨"x", 0, ["a"]⟩, ⟨"y", 5, ["b"]⟩] : List Track).map
        (fun d => (best_confidence (fun _ _ => (1:ℚ)) d.name "x", d)) ∧
      (∀ r ∈ ([⟨"x", 0, ["a"]⟩, ⟨"y", 5, ["b"]⟩] : List Track).map
        (fun d => (best_confidence (fun _ _ => (1:ℚ)) d.name "x", d)), r.1 ≤ q.1) ∧
      q.1 - 1/10 < w.1 ∧
      (∀ r ∈ ([⟨"x", 0, ["a"]⟩, ⟨"y", 5, ["b"]⟩] : List Track).map
        (fun d => (best_confidence (fun _ _ => (1:ℚ)) d.name "x", d)),
        q.1 - 1/10 < r.1 → r.2.popularity ≤ w.2.popularity) :=
  claim_C3_amended (fun _ _ => (1:ℚ)) _ "x" 0 "x" "x" false
    [⟨"x", 0, ["a"]⟩, ⟨"y", 5, ["b"]⟩] (by decide) rfl (by decide)

/-! ## Claim C4: the continue-playback check -/

/-- C4 counterexample: a whitespace-only phrase (empty after stripping)
does *not* resolve to the continue result — `continue_playback` only
fires on the literal word `"spotify"`; the empty phrase yields
`NOTHING_FOUND` and falls through to the other queries. -/
theorem claim_C4_counterexample :
    continue_playback "   " 0 = QueryResult.nothingFound ∧
    pyStrip "   " = "" ∧
    (QueryResult.nothingFound : QueryResult Unit) ≠ .found 1 () := by
  decide

/-- C4 (amended): the continue check fires iff the marker-stripped
phrase, stripped of surrounding whitespace, equals exactly `"spotify"`;
it then returns confidence 1.0 (scaled to 100 by the caller) with the
continue payload, and this check precedes the specific and generic
queries in the resolution chain; any other phrase — in particular an
empty or whitespace-only one — yields `NOTHING_FOUND` from
`continue_playback`. -/
theorem claim_C4_amended (phrase : String) (bonus : ℚ)
    (spec gen : QueryResult Unit) :
    (pyStrip phrase = "spotify" →
      continue_playback phrase bonus = .found 1 () ∧
      resolveQuery (continue_playback phrase bonus) spec gen = .found 1 ()) ∧
    (pyStrip phrase ≠ "spotify" →
      continue_playback phrase bonus = .nothingFound) := by
  constructor
  · intro h
    have h1 : continue_playback phrase bonus = .found 1 () := by
      unfold continue_playback
      rw [if_pos h]
    exact ⟨h1, by rw [h1]; rfl⟩
  · intro h
    unfold continue_playback
    rw [if_neg h]

/-- Witness for the amended C4: the phrase `"spotify"` (the bare
backend name after marker stripping) resolves to the continue result
ahead of a specific-query result. -/
theorem claim_C4_amended_witness :
    continue_playback "spotify" 0 = .found 1 () ∧
    resolveQuery (continue_playback "spotify" 0)
      (.found (1/2) ()) .nothingFound = .found 1 () :=
  (claim_C4_amended "spotify" 0 (.found (1/2) ()) .nothingFound).1 (by decide)

/-! ## Claim C6: empty result sets -/

/-- C6: every sub-query except `query_show` maps an empty backend
result set to `NOTHING_FOUND` without raising (including the
`__init__.py` song, album and user-playlist lookups, which only raise
on non-empty data); but `query_show`
(`src/skill_spotify/__init__.py` lines 561-576, whose own docstring
promises "Tuple with confidence and data or NOTHING_FOUND") has no
else branch and returns Python `None` on an empty result set — the
caller `specific_query` then propagates it and `match_query_phrase`
raises `TypeError` unpacking it (and on a non-empty result set it
raises `NameError` inside the broken `best_confidence`).  The final
conjunct records that this `None` is not the canonical
`NOTHING_FOUND`. -/
theorem claim_C6 (fm fmT : String → String → ℚ) (p : String) (bonus : ℚ) :
    query_show fm (fun _ => some []) p = .returned none ∧
    query_show fm (fun _ => none) p = .returned none ∧
    (∀ s rest, query_show fm (fun _ => some (s :: rest)) p = .raised) ∧
    query_artistU fm (fun _ => some []) p bonus = .nothingFound ∧
    query_artist100 fm (fun _ => some []) p = .nothingFound ∧
    query_albumU fm (fun _ => some []) "zzz" bonus = some .nothingFound ∧
    query_album100 fm (fun _ => some []) "zzz" = some .nothingFound ∧
    query_songU fm (fun _ => some []) "zzz" bonus = some .nothingFound ∧
    query_song100 fm fmT (fun _ => some []) "zzz" = some .nothingFound ∧
    get_best_public_playlist fm (fun _ => some []) p = .nothingFound ∧
    get_best_user_playlist (fun q _ => (q, 1)) [] p = (none, 0) ∧
    get_best_user_playlistInit [] p = .returned (none, 0) ∧
    query_songInit fm (fun _ => some []) "zzz" bonus = .returned .nothingFound ∧
    query_albumInit fm (fun _ => some []) "zzz" bonus = .returned .nothingFound ∧
    (PyOutcome.returned (none : Option (QueryResult (List PodShow))) ≠
      .returned (some .nothingFound)) := by
  refine ⟨rfl, rfl, fun s rest => ?_, rfl, rfl, rfl, rfl, rfl, rfl, rfl, rfl,
    rfl, rfl, rfl, by simp⟩
  simp [query_show, best_confidenceInit]

/-! ## Claim C7: the TTL caches -/

theorem optFalsy_some_of_ne_nil {l : List α} (h : l ≠ []) :
    optFalsy (some l) = false := by
  cases l with
  | nil => exact absurd rfl h
  | cons x xs => rfl

unseal Rat.add Rat.sub Rat.mul Rat.inv Nat.gcd in
/-- C7 counterexample: the claim says an access within the TTL of the
last fetch returns the cached value unchanged without invoking the
backend.  But the freshness test `not self.__device_list or ...` treats
an empty cached list as missing: with an empty device list stored at
time 0, an access at time 0 (well within the 60-second TTL) invokes the
backend again (third component `true`) and returns the fresh value, not
the cached one. -/
theorem claim_C7_counterexample :
    devicesProp true [⟨"id1", "dev", true⟩] 0 ⟨some [], 0⟩ =
      ([⟨"id1", "dev", true⟩], ⟨some [⟨"id1", "dev", true⟩], 0⟩, true) ∧
    ((0:ℚ) - 0 ≤ 60) := by
  refine ⟨by decide, by norm_num⟩

/-- C7 (amended): for each cached collection (user playlists TTL 300 s,
devices TTL 60 s, saved tracks TTL 14400 s), an access within the TTL
of the last fetch returns the cached value unchanged without invoking
the backend *provided the cached value is non-empty*; an access when no
entry exists, the cached value is empty, or the TTL has elapsed invokes
the backend fetch, stores the result with the current timestamp, and
returns the fresh value. -/
theorem claim_C7_amended :
    (∀ (b : List Device) now s l, s.deviceList = some l → l ≠ [] →
      now - s.devicesFetched ≤ 60 → devicesProp true b now s = (l, s, false)) ∧
    (∀ (b : List Device) now s, (optFalsy s.deviceList = true ∨
      60 < now - s.devicesFetched) →
      devicesProp true b now s = (b, ⟨some b, now⟩, true)) ∧
    (∀ (b : List Playlist) now s m, s.playlists = some m → m ≠ [] →
      now - s.playlistsFetched ≤ 5 * 60 →
      playlistsProp true b now s = (m, s, false)) ∧
    (∀ (b : List Playlist) now s, (optFalsy s.playlists = true ∨
      5 * 60 < now - s.playlistsFetched) →
      playlistsProp true b now s =
        (mkPlaylistMap b, ⟨some (mkPlaylistMap b), now⟩, true)) ∧
    (∀ (b : List SavedBatch) now s t, s.savedTracks = some t → t ≠ [] →
      now - s.savedFetched ≤ 4 * 60 * 60 →
      refresh_saved_tracks true b now s = (s, false)) ∧
    (∀ (b : List SavedBatch) now s, (optFalsy s.savedTracks = true ∨
      4 * 60 * 60 < now - s.savedFetched) →
      refresh_saved_tracks true b now s =
        (⟨some (collectSaved b), now⟩, true)) := by
  refine ⟨?_, ?_, ?_, ?_, ?_, ?_⟩
  · intro b now s l hl hne hfresh
    have hdec : decide (60 < now - s.devicesFetched) = false :=
      decide_eq_false (not_lt.mpr hfresh)
    simp [devicesProp, hl, optFalsy_some_of_ne_nil hne, hdec]
  · intro b now s hcond
    rcases hcond with h | h
    · simp [devicesProp, h]
    · simp [devicesProp, decide_eq_true h]
  · intro b now s m hm hne hfresh
    have hdec : decide (5 * 60 < now - s.playlistsFetched) = false :=
      decide_eq_false (not_lt.mpr hfresh)
    simp [playlistsProp, hm, optFalsy_some_of_ne_nil hne, hdec]
  · intro b now s hcond
    rcases hcond with h | h
    · simp [playlistsProp, h]
    · simp [playlistsProp, decide_eq_true h]
  · intro b now s t ht hne hfresh
    have hdec : decide (4 * 60 * 60 < now - s.savedFetched) = false :=
      decide_eq_false (not_lt.mpr hfresh)
    simp [refresh_saved_tracks, ht, optFalsy_some_of_ne_nil hne, hdec]
  · intro b now s hcond
    rcases hcond with h | h
    · simp [refresh_saved_tracks, h]
    · simp [refresh_saved_tracks, decide_eq_true h]

unseal Rat.add Rat.sub Rat.mul Rat.inv Nat.gcd in
/-- Witness for the amended C7: a fresh non-empty device cache is
reused; a stale one is refetched; cold playlist and saved-track caches
are fetched and stored. -/
theorem claim_C7_amended_witness :
    devicesProp true [] 30 ⟨some [⟨"i", "n", true⟩], 0⟩ =
      ([⟨"i", "n", true⟩], ⟨some [⟨"i", "n", true⟩], 0⟩, false) ∧
    devicesProp true [⟨"j", "m", false⟩] 61 ⟨some [⟨"i", "n", true⟩], 0⟩ =
      ([⟨"j", "m", false⟩], ⟨some [⟨"j", "m", false⟩], 61⟩, true) ∧
    playlistsProp true [⟨"Rock", "u1"⟩] 0 ⟨none, 0⟩ =
      (mkPlaylistMap [⟨"Rock", "u1"⟩],
        ⟨some (mkPlaylistMap [⟨"Rock", "u1"⟩]), 0⟩, true) ∧
    refresh_saved_tracks true [⟨[⟨"t", 1, ["a"]⟩], false⟩] 0 ⟨none, 0⟩ =
      (⟨some (collectSaved [⟨[⟨"t", 1, ["a"]⟩], false⟩]), 0⟩, true) :=
  ⟨claim_C7_amended.1 [] 30 _ [⟨"i", "n", true⟩] rfl (by decide) (by norm_num),
   claim_C7_amended.2.1 [⟨"j", "m", false⟩] 61 _ (Or.inr (by norm_num)),
   claim_C7_amended.2.2.2.1 [⟨"Rock", "u1"⟩] 0 _ (Or.inl rfl),
   claim_C7_amended.2.2.2.2.2 [⟨[⟨"t", 1, ["a"]⟩], false⟩] 0 _ (Or.inl rfl)⟩

/-! ## Claim C10: falsy cached values are refetched -/

/-- C10: when the most recent fetch stored an empty collection, every
subsequent access of `devices` or `playlists` performs a new backend
fetch even though the TTL has not elapsed (the freshness test treats a
falsy cached value as missing); a cached value is reused within its TTL
only when it is non-empty (the second and fourth conjuncts: a run that
did not invoke the backend had a non-empty, fresh cached value and
returned it unchanged). -/
theorem claim_C10 :
    (∀ (b : List Device) now s, s.deviceList = some [] →
      devicesProp true b now s = (b, ⟨some b, now⟩, true)) ∧
    (∀ (b : List Device) now s out s', devicesProp true b now s = (out, s', false) →
      ∃ l, s.deviceList = some l ∧ l ≠ [] ∧ now - s.devicesFetched ≤ 60 ∧
        out = l ∧ s' = s) ∧
    (∀ (b : List Playlist) now s, s.playlists = some [] →
      playlistsProp true b now s =
        (mkPlaylistMap b, ⟨some (mkPlaylistMap b), now⟩, true)) ∧
    (∀ (b : List Playlist) now s out s',
      playlistsProp true b now s = (out, s', false) →
      ∃ m, s.playlists = some m ∧ m ≠ [] ∧ now - s.playlistsFetched ≤ 5 * 60 ∧
        out = m ∧ s' = s) := by
  refine ⟨?_, ?_, ?_, ?_⟩
  · intro b now s hl
    simp only [devicesProp, Bool.not_true, Bool.false_eq_true, if_false, hl]
    rfl
  · intro b now s out s' h
    simp only [devicesProp, Bool.not_true, Bool.false_eq_true, if_false] at h
    by_cases hc : (optFalsy s.deviceList || decide (60 < now - s.devicesFetched)) = true
    · rw [if_pos hc] at h
      cases h
    · rw [if_neg hc] at h
      simp only [Bool.or_eq_true, not_or, Bool.not_eq_true, decide_eq_false_iff_not,
        not_lt] at hc
      obtain ⟨hfalsy, hfresh⟩ := hc
      cases hl : s.deviceList with
      | none => rw [hl] at hfalsy; cases hfalsy
      | some l =>
        rw [hl] at hfalsy
        have hne : l ≠ [] := by
          cases l with
          | nil => cases hfalsy
          | cons x xs => simp
        rw [hl] at h
        injection h with h1 h2
        injection h2 with h2 h3
        exact ⟨l, rfl, hne, hfresh, h1.symm ▸ (by simp), by rw [← h2]⟩
  · intro b now s hl
    simp only [playlistsProp, Bool.not_true, Bool.false_eq_true, if_false, hl]
    rfl
  · intro b now s out s' h
    simp only [playlistsProp, Bool.not_true, Bool.false_eq_true, if_false] at h
    by_cases hc : (optFalsy s.playlists || decide (5 * 60 < now - s.playlistsFetched)) = true
    · rw [if_pos hc] at h
      cases h
    · rw [if_neg hc] at h
      simp only [Bool.or_eq_true, not_or, Bool.not_eq_true, decide_eq_false_iff_not,
        not_lt] at hc
      obtain ⟨hfalsy, hfresh⟩ := hc
      cases hl : s.playlists with
      | none => rw [hl] at hfalsy; cases hfalsy
      | some m =>
        rw [hl] at hfalsy
        have hne : m ≠ [] := by
          cases m with
          | nil => cases hfalsy
          | cons x xs => simp
        rw [hl] at h
        injection h with h1 h2
        injection h2 with h2 h3
        exact ⟨m, rfl, hne, hfresh, h1.symm ▸ (by simp), by rw [← h2]⟩

unseal Rat.add Rat.sub Rat.mul Rat.inv Nat.gcd in
/-- Witness for C10: an empty cached device list stored at time 0 is
refetched at time 1 (within the TTL); an empty cached playlist dict is
refetched likewise. -/
theorem claim_C10_witness :
    devicesProp true [⟨"i", "n", true⟩] 1 ⟨some [], 0⟩ =
      ([⟨"i", "n", true⟩], ⟨some [⟨"i", "n", true⟩], 1⟩, true) ∧
    playlistsProp true [⟨"Rock", "u1"⟩] 1 ⟨some [], 0⟩ =
      (mkPlaylistMap [⟨"Rock", "u1"⟩],
        ⟨some (mkPlaylistMap [⟨"Rock", "u1"⟩]), 1⟩, true) :=
  ⟨claim_C10.1 [⟨"i", "n", true⟩] 1 ⟨some [], 0⟩ rfl,
   claim_C10.2.2.1 [⟨"Rock", "u1"⟩] 1 ⟨some [], 0⟩ rfl⟩

/-! ## Claim C8: concurrency -/

unseal Rat.add Rat.sub Rat.mul Rat.inv Nat.gcd in
/-- C8 counterexample: the cache code takes no lock and keeps no
in-flight marker, so two concurrent accesses to the uncached devices
key can both pass the staleness check before either stores — under the
interleaving check₀, check₁, fetch₀, fetch₁, store₀, store₁ the backend
is invoked twice, not once as the claim demands. -/
theorem claim_C8_counterexample :
    (runSched [⟨"i", "n", true⟩] 0 [false, true, false, true, false, true]
      ⟨⟨none, 0⟩, 0, .check, .check⟩).backendCalls = 2 ∧
    (runSched [⟨"i", "n", true⟩] 0 [false, true, false, true, false, true]
      ⟨⟨none, 0⟩, 0, .check, .check⟩).pc0 = .done [⟨"i", "n", true⟩] ∧
    (runSched [⟨"i", "n", true⟩] 0 [false, true, false, true, false, true]
      ⟨⟨none, 0⟩, 0, .check, .check⟩).pc1 = .done [⟨"i", "n", true⟩] ∧
    (2:Nat) ≠ 1 := by
  decide

/-- C8 (amended): the cache has no single-flight coalescing and no
mutual exclusion: with both threads interleaving their staleness checks
before either store, two concurrent accesses of the uncached key invoke
the backend twice; only when the two accesses serialize (first access
runs check-fetch-store to completion, then the second starts) does the
second access reuse the freshly stored non-empty value, for exactly one
invocation in total. -/
theorem claim_C8_amended (backend : List Device) (now : ℚ) (hne : backend ≠ []) :
    (runSched backend now [false, true, false, true, false, true]
      ⟨⟨none, 0⟩, 0, .check, .check⟩).backendCalls = 2 ∧
    (runSched backend now [false, false, false, true]
      ⟨⟨none, 0⟩, 0, .check, .check⟩).backendCalls = 1 ∧
    (runSched backend now [false, false, false, true]
      ⟨⟨none, 0⟩, 0, .check, .check⟩).pc0 = .done backend ∧
    (runSched backend now [false, false, false, true]
      ⟨⟨none, 0⟩, 0, .check, .check⟩).pc1 = .done backend := by
  have hfalse : optFalsy (some backend) = false := optFalsy_some_of_ne_nil hne
  have hfresh : ¬ (60 < now - now) := by
    rw [sub_self]
    norm_num
  have h60 : ¬ ((60:ℚ) < 0) := by norm_num
  refine ⟨?_, ?_, ?_, ?_⟩ <;>
    simp [runSched, stepSys, stepThread, optFalsy, hfalse, hfresh, hne, h60]

/-- Witness for the amended C8 at a one-device backend. -/
theorem claim_C8_amended_witness :
    (runSched [⟨"i", "n", true⟩] 7 [false, true, false, true, false, true]
      ⟨⟨none, 0⟩, 0, .check, .check⟩).backendCalls = 2 ∧
    (runSched [⟨"i", "n", true⟩] 7 [false, false, false, true]
      ⟨⟨none, 0⟩, 0, .check, .check⟩).backendCalls = 1 ∧
    (runSched [⟨"i", "n", true⟩] 7 [false, false, false, true]
      ⟨⟨none, 0⟩, 0, .check, .check⟩).pc0 = .done [⟨"i", "n", true⟩] ∧
    (runSched [⟨"i", "n", true⟩] 7 [false, false, false, true]
      ⟨⟨none, 0⟩, 0, .check, .check⟩).pc1 = .done [⟨"i", "n", true⟩] :=
  claim_C8_amended [⟨"i", "n", true⟩] 7 (by decide)

end SkillSpotify
